import Mathlib

/-!
Stepper motor controller (`MegaBoardLib/stepper.c`)

A shallow embedding of the stepper module: the file-scope `stepperStruct`, the
I/O registers the module touches, the three move commands, `Stepper_Init` and the
output-compare interrupt handler.

Machine integers are natural numbers; every store into a 16-bit object is reduced
modulo `65536` and every store into an 8-bit object modulo `256` where the stored
value could exceed the range.  `unsigned int` is 16 bits wide on the AVR.
-/

namespace Stepper

/-- Build-time constants of the module.  They come from the board header, which
supplies `RAMPSTAGES`, `RAMPARRAY`, `RAMPDURATION`, `RAMPINTERVAL`, `FORWARD`,
`LEFT` and `_HALFSTEPPINGMODE_`; the development is parametric in them.

`beyond i` is the word that a read of `rampArray[i]` yields when `i` is not an index
of the table (C leaves that read undefined; on the AVR it fetches whatever lies
behind the table).  Every result below holds for each choice of `beyond`. -/
structure Config where
  RAMPSTAGES : Nat
  RAMPARRAY : List Int
  RAMPDURATION : Nat
  RAMPINTERVAL : Nat
  FORWARD : Nat
  LEFT : Nat
  _HALFSTEPPINGMODE_ : Nat
  beyond : Nat → Int

/-- The variables the module reads and writes: the four fields of `stepperStruct`,
the port A registers, the timer 1 registers, `TIMSK` and the global interrupt flag
that `cli()` and `sei()` clear and set. -/
structure State where
  stepsToTake : Nat
  stepsTaken : Nat
  rampStage : Nat
  stepperFilter : Nat
  DDRA : Nat
  PORTA : Nat
  ICR1 : Nat
  OCR1A : Nat
  TCNT1 : Nat
  TCCR1A : Nat
  TCCR1B : Nat
  TIMSK : Nat
  SREG_I : Bool
  deriving DecidableEq, Repr

/-- Bit value `1 << n`, the `_BV(n)` of avr-libc. -/
def _BV (n : Nat) : Nat := 2 ^ n

/-- Clock-select bit 0 of `TCCR1B` (avr-libc, ATmega128). -/
def CS10 : Nat := 0

/-- Clock-select bit 1 of `TCCR1B` (avr-libc, ATmega128). -/
def CS11 : Nat := 1

/-- Waveform-generation bit 2 of timer 1, in `TCCR1B` (avr-libc, ATmega128). -/
def WGM12 : Nat := 3

/-- Waveform-generation bit 3 of timer 1, in `TCCR1B` (avr-libc, ATmega128). -/
def WGM13 : Nat := 4

/-- Output-compare A interrupt enable of timer 1, in `TIMSK` (avr-libc, ATmega128). -/
def OCIE1A : Nat := 4

/-- Conversion of an `int` to the 16-bit unsigned value a timer register holds. -/
def toU16 (x : Int) : Nat := (x % 65536).toNat

/-- The table `const int rampArray[RAMPSTAGES] = RAMPARRAY;` read at index `i`:
inside the table the `i`-th initialiser, or `0` where the initialiser list is
shorter than the table; outside the table the word `beyond i`. -/
def rampArray (cfg : Config) (i : Nat) : Int :=
  if i < cfg.RAMPSTAGES then cfg.RAMPARRAY.getD i 0 else cfg.beyond i

/-- Modelled from the spec: the header macro `StartSteppers()` is not among the
sources; it starts timer 1 by setting the clock-select bits `CS11|CS10` of
`TCCR1B`, the bits `Stepper_WaitForStop` polls. -/
def StartSteppers (st : State) : State :=
  { st with TCCR1B := st.TCCR1B ||| (_BV CS11 ||| _BV CS10) }

/-- Modelled from the spec: the header macro `StopSteppers()` is not among the
sources; it stops timer 1 by clearing the clock-select bits `CS11|CS10` of
`TCCR1B` (`~(CS11|CS10)` is `0xFC` in eight bits). -/
def StopSteppers (st : State) : State :=
  { st with TCCR1B := st.TCCR1B &&& 0xFC }

/-- The loop condition of `Stepper_WaitForStop`: `TCCR1B & (_BV(CS11)|_BV(CS10))`
is non-zero, that is, the timer is running. -/
def timerRunning (st : State) : Prop :=
  st.TCCR1B &&& (_BV CS11 ||| _BV CS10) ≠ 0

instance (st : State) : Decidable (timerRunning st) := by
  unfold timerRunning
  infer_instance

/-- The pulse bits of `PORTA` (bits 6 and 3, mask `0x48`) are both clear. -/
def pulseClear (st : State) : Prop := st.PORTA &&& 0x48 = 0

instance (st : State) : Decidable (pulseClear st) := by
  unfold pulseClear
  infer_instance

/-- `Stepper_Init(steppingMode)`. -/
def Stepper_Init (cfg : Config) (steppingMode : Nat) (st : State) : State :=
  let icr := toU16 (rampArray cfg 0)
  { st with
    SREG_I := true
    DDRA := 0xFF
    PORTA := if steppingMode = cfg._HALFSTEPPINGMODE_ then 0 else 0x90
    stepsToTake := 0
    rampStage := 0
    stepsTaken := 0
    stepperFilter := 0xff
    ICR1 := icr
    OCR1A := icr / 2
    TCNT1 := 0
    TCCR1A := 0
    TCCR1B := _BV WGM13 ||| _BV WGM12
    TIMSK := st.TIMSK ||| _BV OCIE1A }

/-- `Stepper_MoveStraight(steps, dir)`.  `~_BV(2)` is `0xFB` and `~_BV(5)` is
`0xDF` in eight bits; `steps` is stored in an `unsigned int`. -/
def Stepper_MoveStraight (cfg : Config) (steps dir : Nat) (st : State) : State :=
  let st1 : State :=
    if dir = cfg.FORWARD then
      { st with PORTA := (st.PORTA ||| _BV 5) &&& 0xFB }
    else
      { st with PORTA := (st.PORTA ||| _BV 2) &&& 0xDF }
  StartSteppers
    { st1 with stepperFilter := 0xFF, stepsTaken := 0, stepsToTake := steps % 65536 }

/-- `Stepper_RotateAboutCenter(steps, dir)`.  `~(_BV(5)|_BV(2))` is `0xDB` in
eight bits. -/
def Stepper_RotateAboutCenter (steps dir : Nat) (st : State) : State :=
  let st1 : State :=
    if dir = 0 then
      { st with PORTA := st.PORTA ||| (_BV 5 ||| _BV 2) }
    else
      { st with PORTA := st.PORTA &&& 0xDB }
  StartSteppers
    { st1 with stepperFilter := 0xFF, stepsTaken := 0, stepsToTake := steps % 65536 }

/-- `Stepper_RotateAboutWheel(steps, wheel, dir)`. -/
def Stepper_RotateAboutWheel (cfg : Config) (steps wheel dir : Nat) (st : State) : State :=
  let st1 : State :=
    if dir = 0 then
      { st with PORTA := st.PORTA ||| (_BV 5 ||| _BV 2) }
    else
      { st with PORTA := st.PORTA &&& 0xDB }
  let st2 : State :=
    if wheel = cfg.LEFT then
      { st1 with stepperFilter := 0x40 }
    else
      { st1 with stepperFilter := 0x08 }
  StartSteppers { st2 with stepsTaken := 0, stepsToTake := steps % 65536 }

/-- The three statements both ramp branches of the handler execute, given the
quotient `q` that is assigned to the `unsigned char rampStage`:
`rampStage = q; ICR1 = rampArray[rampStage]; OCR1A = ICR1/2;`. -/
def programRamp (cfg : Config) (q : Nat) (st : State) : State :=
  let stage := q % 256
  let icr := toU16 (rampArray cfg stage)
  { st with rampStage := stage, ICR1 := icr, OCR1A := icr / 2 }

/-- Lines 191-201 of the handler: the stop test (which does not return) and the
pulse sub-phase.  `~(_BV(6)|_BV(3))` is `0xB7` in eight bits; `stepsToTake--` and
`stepsTaken++` are 16-bit unsigned operations. -/
def pulsePhase (st : State) : State :=
  let st1 : State := if st.stepsToTake = 0 then StopSteppers st else st
  if st1.PORTA &&& 0x48 ≠ 0 then
    { st1 with PORTA := st1.PORTA &&& 0xB7 }
  else
    { st1 with
      PORTA := st1.PORTA ||| (0x48 &&& st1.stepperFilter)
      stepsToTake := (st1.stepsToTake + 65535) % 65536
      stepsTaken := (st1.stepsTaken + 1) % 65536 }

/-- Lines 202-213 of the handler: the two-branch ramp update. -/
def rampUpdate (cfg : Config) (st : State) : State :=
  if st.stepsTaken < cfg.RAMPDURATION ∧ st.stepsTaken < st.stepsToTake then
    programRamp cfg (st.stepsTaken / cfg.RAMPINTERVAL) st
  else if st.stepsToTake < cfg.RAMPDURATION ∧ st.stepsToTake ≤ st.stepsTaken then
    programRamp cfg (st.stepsToTake / cfg.RAMPINTERVAL) st
  else
    st

/-- The interrupt handler `SIGNAL(SIG_OUTPUT_COMPARE1A)`: one timer tick. -/
def SIG_OUTPUT_COMPARE1A (cfg : Config) (st : State) : State :=
  rampUpdate cfg (pulsePhase st)

/-- The state after `n` consecutive invocations of the handler. -/
def ticks (cfg : Config) : Nat → State → State
  | 0, st => st
  | n + 1, st => SIG_OUTPUT_COMPARE1A cfg (ticks cfg n st)

/-- A move command together with its arguments. -/
inductive Command where
  | straight (steps dir : Nat)
  | center (steps dir : Nat)
  | wheel (steps wheel dir : Nat)
  deriving DecidableEq, Repr

/-- The `steps` argument of a move command. -/
def Command.steps : Command → Nat
  | .straight n _ => n
  | .center n _ => n
  | .wheel n _ _ => n

/-- Executing a move command: the call of the corresponding function. -/
def Command.run (cfg : Config) : Command → State → State
  | .straight n d => Stepper_MoveStraight cfg n d
  | .center n d => Stepper_RotateAboutCenter n d
  | .wheel n w d => Stepper_RotateAboutWheel cfg n w d

/-- States the controller can be in: `Stepper_Init` from any prior state, then any
interleaving of move commands and of handler invocations, the handler being
invoked only while the timer runs (a stopped timer raises no compare match). -/
inductive Reachable (cfg : Config) : State → Prop where
  | init (mode : Nat) (st : State) : Reachable cfg (Stepper_Init cfg mode st)
  | command (c : Command) (st : State) :
      c.steps < 65536 → Reachable cfg st → Reachable cfg (c.run cfg st)
  | tick (st : State) :
      timerRunning st → Reachable cfg st → Reachable cfg (SIG_OUTPUT_COMPARE1A cfg st)

/-- The ramp update in the words of the specification: with
`boundary = min(stepsTaken, stepsToTake)`, if `boundary < RAMPDURATION` then
`rampStage := boundary / RAMPINTERVAL`, `ICR1 := rampArray[rampStage]`,
`OCR1A := ICR1/2`; otherwise all three are left unchanged. -/
def rampUpdateMin (cfg : Config) (st : State) : State :=
  let boundary := min st.stepsTaken st.stepsToTake
  if boundary < cfg.RAMPDURATION then
    let stage := (boundary / cfg.RAMPINTERVAL) % 256
    let icr := toU16 (rampArray cfg stage)
    { st with rampStage := stage, ICR1 := icr, OCR1A := icr / 2 }
  else
    st

/-- The index with which one invocation of the handler, entered in state `st`,
subscripts `rampArray` (the value it has just stored in `rampStage`, lines 204-205
and 210-211), or `none` when neither ramp branch is taken. -/
def rampIndexUsed (cfg : Config) (st : State) : Option Nat :=
  let st2 := pulsePhase st
  if st2.stepsTaken < cfg.RAMPDURATION ∧ st2.stepsTaken < st2.stepsToTake then
    some ((st2.stepsTaken / cfg.RAMPINTERVAL) % 256)
  else if st2.stepsToTake < cfg.RAMPDURATION ∧ st2.stepsToTake ≤ st2.stepsTaken then
    some ((st2.stepsToTake / cfg.RAMPINTERVAL) % 256)
  else
    none

/-- Bookkeeping of a move of `s` steps with pulse filter `f`, `n` handler
invocations after the command. -/
structure MoveInv (s f n : Nat) (st : State) : Prop where
  taken : st.stepsTaken = (n + 1) / 2
  toTake : st.stepsToTake = s - (n + 1) / 2
  filter : st.stepperFilter = f
  pulse : st.PORTA &&& 0x48 = if n % 2 = 1 then 0x48 &&& f else 0
  running : n < 2 * s → st.TCCR1B &&& 3 = 3
  stopped : n = 2 * s → st.TCCR1B &&& 3 = 0

/-- A state with every register and variable zero. -/
def zeroState : State :=
  { stepsToTake := 0, stepsTaken := 0, rampStage := 0, stepperFilter := 0, DDRA := 0,
    PORTA := 0, ICR1 := 0, OCR1A := 0, TCNT1 := 0, TCCR1A := 0, TCCR1B := 0, TIMSK := 0,
    SREG_I := false }

/-- A sample build: ten stages of ten steps each, a ramp of a hundred steps. -/
def sampleConfig : Config :=
  { RAMPSTAGES := 10
    RAMPARRAY := [20000, 15000, 12000, 10000, 8000, 7000, 6000, 5000, 4500, 4000]
    RAMPDURATION := 100
    RAMPINTERVAL := 10
    FORWARD := 1
    LEFT := 1
    _HALFSTEPPINGMODE_ := 0
    beyond := fun _ => 0 }

/-- A small build used for short traces: two stages of one step each. -/
def tinyConfig : Config :=
  { RAMPSTAGES := 2
    RAMPARRAY := [2000, 1000]
    RAMPDURATION := 2
    RAMPINTERVAL := 1
    FORWARD := 1
    LEFT := 1
    _HALFSTEPPINGMODE_ := 0
    beyond := fun _ => 0 }

/-- The three objects the ramp update writes: `rampStage`, `ICR1` and `OCR1A`. -/
def rampRegs (st : State) : Nat × Nat × Nat := (st.rampStage, st.ICR1, st.OCR1A)

/-- The values `programRamp cfg q` leaves in `rampStage`, `ICR1` and `OCR1A`. -/
def programmed (cfg : Config) (q : Nat) : Nat × Nat × Nat :=
  (q % 256, toU16 (rampArray cfg (q % 256)), toU16 (rampArray cfg (q % 256)) / 2)

/-- A build whose ramp duration is not a multiple of the interval: three stages,
two steps per stage, a ramp of seven steps (`7 / 2 = 3`). -/
def oddConfig : Config :=
  { RAMPSTAGES := 3
    RAMPARRAY := [3000, 2000, 1000]
    RAMPDURATION := 7
    RAMPINTERVAL := 2
    FORWARD := 1
    LEFT := 1
    _HALFSTEPPINGMODE_ := 0
    beyond := fun _ => 0 }

/-- A build with a table of 257 stages of one step each; the periods fall from
30000 in steps of 100, the terminal entry `rampArray[256]` being 4400. -/
def longConfig : Config :=
  { RAMPSTAGES := 257
    RAMPARRAY := (List.range 257).map (fun i => (30000 : Int) - 100 * (i : Int))
    RAMPDURATION := 257
    RAMPINTERVAL := 1
    FORWARD := 1
    LEFT := 1
    _HALFSTEPPINGMODE_ := 0
    beyond := fun _ => 0 }

/-- A build with a single stage of one step. -/
def oneStageConfig : Config :=
  { RAMPSTAGES := 1
    RAMPARRAY := [1000]
    RAMPDURATION := 1
    RAMPINTERVAL := 1
    FORWARD := 1
    LEFT := 1
    _HALFSTEPPINGMODE_ := 0
    beyond := fun _ => 0 }

/-- An idle state (pulse bits clear, timer stopped, no steps pending) whose timer
period is not a table entry of `oneStageConfig`. -/
def staleState : State := { zeroState with ICR1 := 5, OCR1A := 2 }

/-- A state in the middle of a move: three ticks into a ten-step rotation about the
left wheel in the sample build (filter `0x40`, eight steps still to take). -/
def midMoveState : State :=
  ticks sampleConfig 3
    (Stepper_RotateAboutWheel sampleConfig 10 1 0 (Stepper_Init sampleConfig 1 zeroState))

/-- `Stepper_WaitForStop()`: the busy-wait `while(TCCR1B&(_BV(CS11)|_BV(CS10)));`.
The loop body is empty, so the state changes only through the handler; `fuel` bounds
the number of handler invocations that arrive while the caller waits.  The result
is `none` when the loop is still spinning after `fuel` of them. -/
def Stepper_WaitForStop (cfg : Config) : Nat → State → Option State
  | 0, st => if timerRunning st then none else some st
  | fuel + 1, st =>
    if timerRunning st then Stepper_WaitForStop cfg fuel (SIG_OUTPUT_COMPARE1A cfg st)
    else some st

/-- States the controller can be in when no move command asks for zero steps:
`Stepper_Init` from any prior state, then any interleaving of move commands with
`1 ≤ steps ≤ 65535` and of handler invocations, the handler being invoked only
while the timer runs. -/
inductive ReachableMoving (cfg : Config) : State → Prop where
  | init (mode : Nat) (st : State) : ReachableMoving cfg (Stepper_Init cfg mode st)
  | command (c : Command) (st : State) :
      1 ≤ c.steps → c.steps < 65536 → ReachableMoving cfg st →
      ReachableMoving cfg (c.run cfg st)
  | tick (st : State) :
      timerRunning st → ReachableMoving cfg st →
      ReachableMoving cfg (SIG_OUTPUT_COMPARE1A cfg st)

/-- The state one tick into a one-step straight move after `Stepper_Init`: the only
step has been counted (`stepsToTake = 0`) and its pulse is still asserted. -/
def lastPulseState : State :=
  ticks sampleConfig 1
    (Stepper_MoveStraight sampleConfig 1 1 (Stepper_Init sampleConfig 1 zeroState))

/-- The state right after `Stepper_Init` and a straight move of zero steps. -/
def zeroMoveState : State :=
  Stepper_MoveStraight sampleConfig 0 1 (Stepper_Init sampleConfig 1 zeroState)

/-- A rotation about the left wheel that preempts a straight move while the pulse
of its first step is asserted on both wheels. -/
def preemptedState : State :=
  Stepper_RotateAboutWheel sampleConfig 5 1 0
    (ticks sampleConfig 1
      (Stepper_MoveStraight sampleConfig 5 1 (Stepper_Init sampleConfig 1 zeroState)))

end Stepper

/-! Real time counter (`ATmega128Lib/rtc.c`) -/

namespace Rtc

/-- The null function pointer. -/
def NULL : Nat := 0

/-- Timer 0 overflow interrupt enable, bit 0 of `TIMSK` (avr-libc, ATmega128). -/
def TOIE0 : Nat := 0

/-- The variables of the module and the timer 0 registers it writes.  A function
pointer is the address it holds, `NULL` being `0`. -/
structure State where
  rtcInterrupt : Nat
  rtcCount : Nat
  rtcMax : Nat
  TCCR0 : Nat
  TIMSK : Nat
  deriving DecidableEq, Repr

/-- `RTC_SetInterrupt(fptr, count)`; `count` is an `unsigned int`. -/
def RTC_SetInterrupt (fptr count : Nat) (st : State) : State :=
  { st with
    TIMSK := st.TIMSK ||| 2 ^ TOIE0
    rtcInterrupt := fptr
    rtcCount := count % 65536
    rtcMax := count % 65536 }

/-- The handler `SIGNAL(SIG_OVERFLOW0)`: one overflow of the real time counter.
The second component is the function the handler calls, if it calls one; the called
function lies outside the module and is taken not to write the module's variables.
`&&` evaluates `--rtcCount` only when `rtcInterrupt != NULL`; the decrement is a
16-bit unsigned operation. -/
def SIG_OVERFLOW0 (st : State) : State × Option Nat :=
  if st.rtcInterrupt ≠ NULL then
    let st1 : State := { st with rtcCount := (st.rtcCount + 65535) % 65536 }
    if st1.rtcCount = 0 then
      ({ st1 with rtcCount := st1.rtcMax }, some st1.rtcInterrupt)
    else
      (st1, none)
  else
    (st, none)

/-- The state after `n` overflow interrupts. -/
def overflows : Nat → State → State
  | 0, st => st
  | n + 1, st => (SIG_OVERFLOW0 (overflows n st)).1

/-- Lines 94-98 of `RTC_Delay(delayUnits)`, up to the wait loop.  The macro
`RTC_Start()` is not among the sources; its documentation says it starts or resumes
the counter without resetting the timer registers, so it is a parameter `start`
acting on the control register `TCCR0`.  The saved `fptr` is not used again. -/
def RTC_Delay_setup (start : Nat → Nat) (delayUnits : Nat) (st : State) : State :=
  { st with
    TIMSK := st.TIMSK ||| 2 ^ TOIE0
    rtcInterrupt := NULL
    rtcCount := delayUnits % 65536
    TCCR0 := start st.TCCR0 }

/-- The wait loop `while(rtcCount>0);` of `RTC_Delay`.  The body is empty, so the
state changes only through overflow interrupts; `fuel` bounds how many arrive.  The
result is the number of overflows after which the loop exits, or `none` when it is
still spinning after `fuel` of them. -/
def waitLoop : Nat → State → Option Nat
  | 0, st => if st.rtcCount > 0 then none else some 0
  | fuel + 1, st =>
    if st.rtcCount > 0 then (waitLoop fuel (SIG_OVERFLOW0 st).1).map (fun k => k + 1)
    else some 0

/-- `RTC_Delay(delayUnits)`: set-up, wait loop, then `RTC_Pause()`.  The macro
`RTC_Pause()` is not among the sources and is a parameter `pause` acting on `TCCR0`.
The result is the number of overflows waited and the final state, or `none` when
the loop has not exited after `fuel` overflows. -/
def RTC_Delay (start pause : Nat → Nat) (fuel delayUnits : Nat) (st : State) :
    Option (Nat × State) :=
  let st1 := RTC_Delay_setup start delayUnits st
  match waitLoop fuel st1 with
  | none => none
  | some k =>
    let st2 := overflows k st1
    some (k, { st2 with TCCR0 := pause st2.TCCR0 })

/-- A state of the module with every variable and register zero. -/
def zeroState : State :=
  { rtcInterrupt := 0, rtcCount := 0, rtcMax := 0, TCCR0 := 0, TIMSK := 0 }

end Rtc

/-! Servo motors (`MegaBoardLib/servo.c`) -/

namespace Servo

/-- `Servo_SetAngle(servoAngle, servoMotorNumber)`.  `servoValues i` is the word at
`servoValues + i`: for `i < 8` an entry of `unsigned int servoValues[8]`, for
`i ≥ 8` what lies behind the array.  `value` is the right-hand side
`START_VALUE+(((float)(END_VALUE-START_VALUE)/180)*servoAngle)` converted to
`unsigned int`; it is computed in floating point and enters as a given value. -/
def Servo_SetAngle (value servoMotorNumber : Nat) (servoValues : Nat → Nat) : Nat → Nat :=
  if servoMotorNumber > 0 ∧ servoMotorNumber < 9 then
    fun i => if i = servoMotorNumber then value else servoValues i
  else
    servoValues

/-- `Servo_SetAngles(servoAngle1, ..., servoAngle8)`: the `k`-th argument goes to
`servoValues[k-1]`.  `value1 ... value8` are the converted right-hand sides. -/
def Servo_SetAngles (value1 value2 value3 value4 value5 value6 value7 value8 : Nat)
    (servoValues : Nat → Nat) : Nat → Nat :=
  fun i =>
    if i = 0 then value1 else if i = 1 then value2 else if i = 2 then value3
    else if i = 3 then value4 else if i = 4 then value5 else if i = 5 then value6
    else if i = 6 then value7 else if i = 7 then value8 else servoValues i

end Servo

/-! DC motors (`MegaBoardLib/dcmotors.c`) -/

namespace DCmotors

/-- The registers the direction and speed functions write. -/
structure State where
  PORTD : Nat
  OCR3B : Nat
  OCR3C : Nat
  deriving DecidableEq, Repr

/-- `DCmotors_ChangeDir(leftMotorDir, rightMotorDir)`. -/
def DCmotors_ChangeDir (leftMotorDir rightMotorDir : Nat) (st : State) : State :=
  { st with PORTD := ((leftMotorDir <<< 6) &&& 0xC0) ||| ((rightMotorDir <<< 4) &&& 0x30) }

/-- `DCmotors_SetLeftMotor(motorSpeed, motorDir)`.  `pwm motorSpeed` is
`(unsigned int)((MAXPWM/100)*(float)motorSpeed)`, computed in floating point from a
header constant and taken as given. -/
def DCmotors_SetLeftMotor (pwm : Nat → Nat) (motorSpeed motorDir : Nat) (st : State) :
    State :=
  let st1 : State := if motorSpeed ≤ 100 then { st with OCR3B := pwm motorSpeed } else st
  { st1 with PORTD := st1.PORTD &&& ((motorDir <<< 6) &&& 0xC0) }

/-- `DCmotors_SetRightMotor(motorSpeed, motorDir)`. -/
def DCmotors_SetRightMotor (pwm : Nat → Nat) (motorSpeed motorDir : Nat) (st : State) :
    State :=
  let st1 : State := if motorSpeed ≤ 100 then { st with OCR3C := pwm motorSpeed } else st
  { st1 with PORTD := st1.PORTD &&& ((motorDir <<< 4) &&& 0x30) }

end DCmotors

/-! Digital I/O and external interrupts (`MegaBoardLib/digitalio.c`) -/

namespace DigitalIO

/-- The null function pointer. -/
def NULL : Nat := 0

/-- The port mode constants of the board header, which is not among the sources. -/
structure Config where
  _MODE_INPUT_ : Nat
  _MODE_OUTPUT_ : Nat
  _MODE_BITMODE_ : Nat

/-- The variables of the module and the registers the modelled functions touch.
The `PIN` registers hold the levels on the pins; a function pointer is the address
it holds, `NULL` being `0`. -/
structure State where
  port1Mode : Nat
  port2Mode : Nat
  DDRB : Nat
  DDRD : Nat
  DDRE : Nat
  PINB : Nat
  PIND : Nat
  PINE : Nat
  PINF : Nat
  EICRB : Nat
  EIMSK : Nat
  extInterrupt0 : Nat
  extInterrupt1 : Nat
  extInterrupt2 : Nat
  extInterrupt3 : Nat
  deriving DecidableEq, Repr

/-- `reg &= ~_BV(bit)` on an 8-bit register: the complement is taken in `int` and
the result stored in eight bits, so a `bit` of 8 or more clears nothing. -/
def clearBit8 (reg bit : Nat) : Nat := reg &&& (0xFF ^^^ (2 ^ bit % 256))

/-- `reg |= _BV(bit)` on an 8-bit register: a `bit` of 8 or more sets nothing. -/
def setBit8 (reg bit : Nat) : Nat := (reg ||| 2 ^ bit) % 256

/-- `IO_ReadPort1()`: the new state and the returned byte. -/
def IO_ReadPort1 (cfg : Config) (st : State) : State × Nat :=
  let st1 : State :=
    if st.port1Mode ≠ cfg._MODE_INPUT_ then
      { st with
        port1Mode := cfg._MODE_INPUT_
        DDRB := st.DDRB &&& 0xFC
        DDRE := st.DDRE &&& 0xF3
        DDRD := st.DDRD &&& 0x0F }
    else st
  (st1, ((st1.PINB &&& 0x03) ||| (st1.PINE &&& 0x0C) ||| (st1.PINF &&& 0xF0)) % 256)

/-- `IO_ReadPort1Bit(bitNumber)`: the new state and the returned byte.  In
`PINB & _BV(bitNumber)>>(bitNumber)` the shift binds tighter than `&`, so the
operand of `&` is `_BV(bitNumber)>>(bitNumber)`, with `_BV(n)` the avr-libc macro
`(1 << (n))`. -/
def IO_ReadPort1Bit (cfg : Config) (bitNumber : Nat) (st : State) : State × Nat :=
  let st1 : State := { st with port1Mode := cfg._MODE_BITMODE_ }
  if bitNumber < 2 then
    ({ st1 with DDRB := clearBit8 st1.DDRB bitNumber },
      (st1.PINB &&& ((2 ^ bitNumber) >>> bitNumber)) % 256)
  else if bitNumber < 4 then
    ({ st1 with DDRE := clearBit8 st1.DDRE bitNumber },
      (st1.PINE &&& ((2 ^ bitNumber) >>> bitNumber)) % 256)
  else if bitNumber < 8 then
    ({ st1 with DDRD := clearBit8 st1.DDRD bitNumber },
      (st1.PIND &&& ((2 ^ bitNumber) >>> bitNumber)) % 256)
  else
    (st1, 0)

/-- `IO_SetExtInterrupt(interruptNumber, interruptMode, fptr)`. -/
def IO_SetExtInterrupt (interruptNumber interruptMode fptr : Nat) (st : State) : State :=
  if interruptNumber = 1 then
    { st with
      EICRB := (st.EICRB &&& 0xFC) ||| (interruptMode &&& 0x03)
      DDRE := clearBit8 st.DDRE (interruptNumber + 4)
      extInterrupt0 := fptr
      EIMSK := setBit8 st.EIMSK (interruptNumber + 4) }
  else if interruptNumber = 2 then
    { st with
      EICRB := (st.EICRB &&& 0xF3) ||| ((interruptMode &&& 0x03) <<< 2)
      DDRE := clearBit8 st.DDRE (interruptNumber + 4)
      extInterrupt1 := fptr
      EIMSK := setBit8 st.EIMSK (interruptNumber + 4) }
  else if interruptNumber = 3 then
    { st with
      EICRB := (st.EICRB &&& 0xCF) ||| ((interruptMode &&& 0x03) <<< 4)
      DDRE := clearBit8 st.DDRE (interruptNumber + 4)
      extInterrupt2 := fptr
      EIMSK := setBit8 st.EIMSK (interruptNumber + 4) }
  else if interruptNumber = 4 then
    { st with
      EICRB := (st.EICRB &&& 0x3F) ||| ((interruptMode &&& 0x03) <<< 6)
      DDRE := clearBit8 st.DDRE (interruptNumber + 4)
      extInterrupt3 := fptr
      EIMSK := setBit8 st.EIMSK (interruptNumber + 4) }
  else st

/-- `IO_ResetExtInterrupt(interruptNumber)`. -/
def IO_ResetExtInterrupt (interruptNumber : Nat) (st : State) : State :=
  if interruptNumber < 4 then { st with EIMSK := clearBit8 st.EIMSK (interruptNumber + 4) }
  else st

/-- `SIGNAL(SIG_INTERRUPT4)`, the service routine of external interrupt 4: the
function it calls, if it calls one. -/
def SIG_INTERRUPT4 (st : State) : Option Nat :=
  if st.extInterrupt0 ≠ NULL then some st.extInterrupt0 else none

/-- `SIGNAL(SIG_INTERRUPT5)`, the service routine of external interrupt 5. -/
def SIG_INTERRUPT5 (st : State) : Option Nat :=
  if st.extInterrupt1 ≠ NULL then some st.extInterrupt1 else none

/-- `SIGNAL(SIG_INTERRUPT6)`, the service routine of external interrupt 6. -/
def SIG_INTERRUPT6 (st : State) : Option Nat :=
  if st.extInterrupt2 ≠ NULL then some st.extInterrupt2 else none

/-- `SIGNAL(SIG_INTERRUPT7)`, the service routine of external interrupt 7. -/
def SIG_INTERRUPT7 (st : State) : Option Nat :=
  if st.extInterrupt3 ≠ NULL then some st.extInterrupt3 else none

/-- A state of the module with every variable and register zero. -/
def zeroState : State :=
  { port1Mode := 0, port2Mode := 0, DDRB := 0, DDRD := 0, DDRE := 0, PINB := 0, PIND := 0,
    PINE := 0, PINF := 0, EICRB := 0, EIMSK := 0, extInterrupt0 := 0, extInterrupt1 := 0,
    extInterrupt2 := 0, extInterrupt3 := 0 }

/-- Sample values of the mode constants. -/
def sampleConfig : Config :=
  { _MODE_INPUT_ := 0, _MODE_OUTPUT_ := 1, _MODE_BITMODE_ := 2 }

end DigitalIO

/-! Character display (`MegaBoardLib/lcd.c`) -/

namespace Lcd

/-- The two ports the display hangs on, and the list of the command bytes strobed
into it so far (latest last). -/
structure State where
  PORTC : Nat
  PORTG : Nat
  commands : List Nat
  deriving DecidableEq, Repr

/-- `Lcd_WriteCommand(command)`: the byte is put on `PORTC`, register select
(`PORTG` bit 0) is cleared and enable (`PORTG` bit 1) is pulsed, which strobes the
command into the display; the delay loop has no effect on the state.  `~_BV(0)` is
`0xFE` and `~_BV(1)` is `0xFD` in eight bits. -/
def Lcd_WriteCommand (command : Nat) (st : State) : State :=
  { st with
    PORTC := command % 256
    PORTG := (((st.PORTG &&& 0xFE) ||| 2) &&& 0xFD)
    commands := st.commands ++ [command % 256] }

/-- `Lcd_GotoXY(row, column)`. -/
def Lcd_GotoXY (row column : Nat) (st : State) : State :=
  if row = 1 ∧ column < 16 then
    Lcd_WriteCommand (0x7F + column) st
  else if row = 2 ∧ column < 16 then
    Lcd_WriteCommand (0xBF + column) st
  else
    st

end Lcd

/-! Serial ports (`ATmega128Lib/uart0.c`, `ATmega128Lib/uart1.c`) -/

namespace Uart

/-- The receive buffer sizes of the board header, which is not among the sources. -/
structure Config where
  RX0BUFFERSIZE : Nat
  RX1BUFFERSIZE : Nat

/-- The store `buffer[pos] = value`, the buffer being the memory words from its
first element on: indices below the buffer size are the array, the others what lies
behind it. -/
def store (buffer : Nat → Nat) (pos value : Nat) : Nat → Nat :=
  fun i => if i = pos then value else buffer i

/-- The loop `while(1) { ... }` of `Uart0_ReadString` and of `Uart1_ReadString`,
which differ only in the registers, the buffer and the size constant.  The list is
the bytes the receiver delivers, in order; each iteration waits for one and takes
it.  `termChar` is the value of the `char` after integer promotion, with which the
received `byte` is compared; `rxPos` is a `byte`, so `rxPos++` wraps at 256.  The
result is the buffer and the bytes not yet taken, or `none` when the bytes run out
while the function still waits. -/
def readLoop (size : Nat) (termChar : Int) : List Nat → Nat → (Nat → Nat) →
    Option ((Nat → Nat) × List Nat)
  | [], _, _ => none
  | data :: rest, rxPos, buffer =>
    if (data : Int) = termChar ∨ rxPos = size then
      some (store buffer rxPos 0, rest)
    else
      readLoop size termChar rest ((rxPos + 1) % 256) (store buffer rxPos data)

/-- `Uart0_ReadString(termChar)`: `rxPos = 0`, then the loop on `rx0Buffer`. -/
def Uart0_ReadString (cfg : Config) (termChar : Int) (received : List Nat)
    (rx0Buffer : Nat → Nat) : Option ((Nat → Nat) × List Nat) :=
  readLoop cfg.RX0BUFFERSIZE termChar received 0 rx0Buffer

/-- `Uart1_ReadString(termChar)`: `rxPos = 0`, then the loop on `rx1Buffer`. -/
def Uart1_ReadString (cfg : Config) (termChar : Int) (received : List Nat)
    (rx1Buffer : Nat → Nat) : Option ((Nat → Nat) × List Nat) :=
  readLoop cfg.RX1BUFFERSIZE termChar received 0 rx1Buffer

/-- A build with receive buffers of 300 bytes. -/
def wideConfig : Config := { RX0BUFFERSIZE := 300, RX1BUFFERSIZE := 300 }

/-- A build with receive buffers of 64 bytes. -/
def sampleConfig : Config := { RX0BUFFERSIZE := 64, RX1BUFFERSIZE := 64 }

/-- 256 times the letter `a`, then a carriage return. -/
def longLine : List Nat := List.replicate 256 97 ++ [13]

end Uart

namespace Stepper

/-- A move is in progress over the first `n` handler invocations that follow the
state `st`: none of them is entered with `stepsToTake = 0` and the pulse bits
clear. -/
def inProgress (cfg : Config) (n : Nat) (st : State) : Prop :=
  ∀ j, j < n → ¬ ((ticks cfg j st).stepsToTake = 0 ∧ pulseClear (ticks cfg j st))

/-! ## Bit-level facts about the masks the module uses -/

theorem run_mask_eq : _BV CS11 ||| _BV CS10 = 3 := by decide

theorem or_and_mask (p m k : Nat) (h : p &&& k = 0) : (p ||| m) &&& k = m &&& k := by
  rw [Nat.and_comm, Nat.and_or_distrib_left, Nat.and_comm, h, Nat.zero_or, Nat.and_comm]

theorem or_and_mask_keep (p m k : Nat) (h : m &&& k = 0) : (p ||| m) &&& k = p &&& k := by
  rw [Nat.or_comm]
  exact or_and_mask m p k h

theorem and_and_mask (p a k c : Nat) (h : a &&& k = c) : (p &&& a) &&& k = p &&& c := by
  rw [Nat.and_assoc, h]

theorem started_running (x : Nat) : (x ||| 3) &&& 3 = 3 := by
  rw [Nat.and_comm, Nat.and_or_distrib_left]
  apply Nat.eq_of_testBit_eq
  intro i
  simp only [Nat.testBit_or, Nat.testBit_and]
  cases (Nat.testBit 3 i) <;> simp

theorem stopped_not_running (x : Nat) : (x &&& 0xFC) &&& 3 = 0 := by
  rw [and_and_mask x 0xFC 3 0 (by decide), Nat.and_zero]

theorem pulse_cleared (p : Nat) : (p &&& 0xB7) &&& 0x48 = 0 := by
  rw [and_and_mask p 0xB7 0x48 0 (by decide), Nat.and_zero]

theorem pulse_asserted (p f : Nat) (h : p &&& 0x48 = 0) :
    (p ||| (0x48 &&& f)) &&& 0x48 = 0x48 &&& f := by
  rw [or_and_mask p _ 0x48 h, Nat.and_comm, ← Nat.and_assoc, Nat.and_self]

/-! ## Frame facts: what each piece of the handler leaves alone -/

@[simp] theorem programRamp_stepsTaken (cfg : Config) (q : Nat) (st : State) :
    (programRamp cfg q st).stepsTaken = st.stepsTaken := rfl

@[simp] theorem programRamp_stepsToTake (cfg : Config) (q : Nat) (st : State) :
    (programRamp cfg q st).stepsToTake = st.stepsToTake := rfl

@[simp] theorem programRamp_stepperFilter (cfg : Config) (q : Nat) (st : State) :
    (programRamp cfg q st).stepperFilter = st.stepperFilter := rfl

@[simp] theorem programRamp_PORTA (cfg : Config) (q : Nat) (st : State) :
    (programRamp cfg q st).PORTA = st.PORTA := rfl

@[simp] theorem programRamp_TCCR1B (cfg : Config) (q : Nat) (st : State) :
    (programRamp cfg q st).TCCR1B = st.TCCR1B := rfl

@[simp] theorem rampUpdate_stepsTaken (cfg : Config) (st : State) :
    (rampUpdate cfg st).stepsTaken = st.stepsTaken := by
  unfold rampUpdate; split_ifs <;> rfl

@[simp] theorem rampUpdate_stepsToTake (cfg : Config) (st : State) :
    (rampUpdate cfg st).stepsToTake = st.stepsToTake := by
  unfold rampUpdate; split_ifs <;> rfl

@[simp] theorem rampUpdate_stepperFilter (cfg : Config) (st : State) :
    (rampUpdate cfg st).stepperFilter = st.stepperFilter := by
  unfold rampUpdate; split_ifs <;> rfl

@[simp] theorem rampUpdate_PORTA (cfg : Config) (st : State) :
    (rampUpdate cfg st).PORTA = st.PORTA := by
  unfold rampUpdate; split_ifs <;> rfl

@[simp] theorem rampUpdate_TCCR1B (cfg : Config) (st : State) :
    (rampUpdate cfg st).TCCR1B = st.TCCR1B := by
  unfold rampUpdate; split_ifs <;> rfl

@[simp] theorem pulsePhase_stepperFilter (st : State) :
    (pulsePhase st).stepperFilter = st.stepperFilter := by
  unfold pulsePhase StopSteppers; dsimp only; split_ifs <;> rfl

@[simp] theorem pulsePhase_ICR1 (st : State) : (pulsePhase st).ICR1 = st.ICR1 := by
  unfold pulsePhase StopSteppers; dsimp only; split_ifs <;> rfl

@[simp] theorem pulsePhase_OCR1A (st : State) : (pulsePhase st).OCR1A = st.OCR1A := by
  unfold pulsePhase StopSteppers; dsimp only; split_ifs <;> rfl

@[simp] theorem pulsePhase_rampStage (st : State) :
    (pulsePhase st).rampStage = st.rampStage := by
  unfold pulsePhase StopSteppers; dsimp only; split_ifs <;> rfl

/-- Leading edge: with the pulse bits clear and steps left, the handler asserts the
filtered pulse bits and counts one step; the timer register is untouched. -/
theorem pulsePhase_leading (st : State) (h0 : st.stepsToTake ≠ 0)
    (hp : st.PORTA &&& 0x48 = 0) :
    pulsePhase st =
      { st with
        PORTA := st.PORTA ||| (0x48 &&& st.stepperFilter)
        stepsToTake := (st.stepsToTake + 65535) % 65536
        stepsTaken := (st.stepsTaken + 1) % 65536 } := by
  unfold pulsePhase
  simp [h0, hp]

/-- Trailing edge with steps left: the handler only clears the pulse bits. -/
theorem pulsePhase_trailing (st : State) (h0 : st.stepsToTake ≠ 0)
    (hp : st.PORTA &&& 0x48 ≠ 0) :
    pulsePhase st = { st with PORTA := st.PORTA &&& 0xB7 } := by
  unfold pulsePhase
  simp [h0, hp]

/-- Trailing edge of the last step: the handler stops the timer and clears the
pulse bits. -/
theorem pulsePhase_last (st : State) (h0 : st.stepsToTake = 0)
    (hp : st.PORTA &&& 0x48 ≠ 0) :
    pulsePhase st = { st with PORTA := st.PORTA &&& 0xB7, TCCR1B := st.TCCR1B &&& 0xFC } := by
  unfold pulsePhase StopSteppers
  simp [h0, hp]

/-! ## The bookkeeping invariant of a move -/

theorem tick_stepsTaken (cfg : Config) (st : State) :
    (SIG_OUTPUT_COMPARE1A cfg st).stepsTaken = (pulsePhase st).stepsTaken := by
  simp [SIG_OUTPUT_COMPARE1A]

/-- One handler invocation advances the bookkeeping of a move by one tick. -/
theorem MoveInv.step (cfg : Config) {s f n : Nat} {st : State} (hs : s ≤ 65535)
    (hf : 0x48 &&& f ≠ 0) (hn : n < 2 * s) (h : MoveInv s f n st) :
    MoveInv s f (n + 1) (SIG_OUTPUT_COMPARE1A cfg st) := by
  obtain ⟨hT, hR, hF, hP, hrun, _⟩ := h
  rcases Nat.mod_two_eq_zero_or_one n with he | ho
  · -- leading edge
    have hp0 : st.PORTA &&& 0x48 = 0 := by rw [hP]; simp [he]
    have hR0 : st.stepsToTake ≠ 0 := by omega
    have hph := pulsePhase_leading st hR0 hp0
    refine ⟨?_, ?_, ?_, ?_, ?_, ?_⟩
    · simp only [SIG_OUTPUT_COMPARE1A, rampUpdate_stepsTaken, hph]; omega
    · simp only [SIG_OUTPUT_COMPARE1A, rampUpdate_stepsToTake, hph]; omega
    · simp only [SIG_OUTPUT_COMPARE1A, rampUpdate_stepperFilter, hph, hF]
    · have h1 : (n + 1) % 2 = 1 := by omega
      simp only [SIG_OUTPUT_COMPARE1A, rampUpdate_PORTA, hph, h1, if_true, hF]
      rw [← hF]
      exact pulse_asserted st.PORTA st.stepperFilter hp0
    · intro _
      simp only [SIG_OUTPUT_COMPARE1A, rampUpdate_TCCR1B, hph]
      exact hrun hn
    · intro h2; omega
  · -- trailing edge
    have hp1 : st.PORTA &&& 0x48 ≠ 0 := by rw [hP]; simpa [ho] using hf
    have h1 : ¬ ((n + 1) % 2 = 1) := by omega
    by_cases hR0 : st.stepsToTake = 0
    · have hph := pulsePhase_last st hR0 hp1
      refine ⟨?_, ?_, ?_, ?_, ?_, ?_⟩
      · simp only [SIG_OUTPUT_COMPARE1A, rampUpdate_stepsTaken, hph]; omega
      · simp only [SIG_OUTPUT_COMPARE1A, rampUpdate_stepsToTake, hph]; omega
      · simp only [SIG_OUTPUT_COMPARE1A, rampUpdate_stepperFilter, hph, hF]
      · simp only [SIG_OUTPUT_COMPARE1A, rampUpdate_PORTA, hph, h1, if_false]
        exact pulse_cleared st.PORTA
      · intro h2; omega
      · intro _
        simp only [SIG_OUTPUT_COMPARE1A, rampUpdate_TCCR1B, hph]
        exact stopped_not_running st.TCCR1B
    · have hph := pulsePhase_trailing st hR0 hp1
      refine ⟨?_, ?_, ?_, ?_, ?_, ?_⟩
      · simp only [SIG_OUTPUT_COMPARE1A, rampUpdate_stepsTaken, hph]; omega
      · simp only [SIG_OUTPUT_COMPARE1A, rampUpdate_stepsToTake, hph]; omega
      · simp only [SIG_OUTPUT_COMPARE1A, rampUpdate_stepperFilter, hph, hF]
      · simp only [SIG_OUTPUT_COMPARE1A, rampUpdate_PORTA, hph, h1, if_false]
        exact pulse_cleared st.PORTA
      · intro _
        simp only [SIG_OUTPUT_COMPARE1A, rampUpdate_TCCR1B, hph]
        exact hrun hn
      · intro h2; omega

/-- The bookkeeping holds after every one of the first `2 * s` ticks of a move. -/
theorem MoveInv.after_ticks (cfg : Config) {s f : Nat} {st : State} (hs : s ≤ 65535)
    (hf : 0x48 &&& f ≠ 0) (h : MoveInv s f 0 st) :
    ∀ n, n ≤ 2 * s → MoveInv s f n (ticks cfg n st) := by
  intro n
  induction n with
  | zero => intro _; exact h
  | succ n ih =>
    intro hn
    exact MoveInv.step cfg hs hf (by omega) (ih (by omega))

/-! ## What a move command establishes -/

theorem straight_pulse (cfg : Config) (s dir : Nat) (st : State) :
    (Stepper_MoveStraight cfg s dir st).PORTA &&& 0x48 = st.PORTA &&& 0x48 := by
  unfold Stepper_MoveStraight StartSteppers
  by_cases hd : dir = cfg.FORWARD
  · simp only [hd, if_true]
    rw [and_and_mask _ 0xFB 0x48 0x48 (by decide), or_and_mask_keep _ _ _ (by decide)]
  · simp only [hd, if_false]
    rw [and_and_mask _ 0xDF 0x48 0x48 (by decide), or_and_mask_keep _ _ _ (by decide)]

theorem center_pulse (s dir : Nat) (st : State) :
    (Stepper_RotateAboutCenter s dir st).PORTA &&& 0x48 = st.PORTA &&& 0x48 := by
  unfold Stepper_RotateAboutCenter StartSteppers
  by_cases hd : dir = 0
  · simp only [hd, if_true]
    rw [or_and_mask_keep _ _ _ (by decide)]
  · simp only [hd, if_false]
    rw [and_and_mask _ 0xDB 0x48 0x48 (by decide)]

theorem wheel_pulse (cfg : Config) (s w dir : Nat) (st : State) :
    (Stepper_RotateAboutWheel cfg s w dir st).PORTA &&& 0x48 = st.PORTA &&& 0x48 := by
  unfold Stepper_RotateAboutWheel StartSteppers
  by_cases hd : dir = 0 <;> by_cases hw : w = cfg.LEFT
  · simp only [hd, hw, if_true]
    rw [or_and_mask_keep _ _ _ (by decide)]
  · simp only [hd, hw, if_true, if_false]
    rw [or_and_mask_keep _ _ _ (by decide)]
  · simp only [hd, hw, if_true, if_false]
    rw [and_and_mask _ 0xDB 0x48 0x48 (by decide)]
  · simp only [hd, hw, if_false]
    rw [and_and_mask _ 0xDB 0x48 0x48 (by decide)]

theorem straight_fields (cfg : Config) (s dir : Nat) (st : State) :
    (Stepper_MoveStraight cfg s dir st).stepsTaken = 0 ∧
    (Stepper_MoveStraight cfg s dir st).stepsToTake = s % 65536 ∧
    (Stepper_MoveStraight cfg s dir st).stepperFilter = 0xFF ∧
    (Stepper_MoveStraight cfg s dir st).TCCR1B = st.TCCR1B ||| 3 ∧
    (Stepper_MoveStraight cfg s dir st).ICR1 = st.ICR1 ∧
    (Stepper_MoveStraight cfg s dir st).OCR1A = st.OCR1A ∧
    (Stepper_MoveStraight cfg s dir st).rampStage = st.rampStage := by
  unfold Stepper_MoveStraight StartSteppers
  rw [run_mask_eq]
  by_cases hd : dir = cfg.FORWARD <;> simp [hd]

theorem center_fields (s dir : Nat) (st : State) :
    (Stepper_RotateAboutCenter s dir st).stepsTaken = 0 ∧
    (Stepper_RotateAboutCenter s dir st).stepsToTake = s % 65536 ∧
    (Stepper_RotateAboutCenter s dir st).stepperFilter = 0xFF ∧
    (Stepper_RotateAboutCenter s dir st).TCCR1B = st.TCCR1B ||| 3 ∧
    (Stepper_RotateAboutCenter s dir st).ICR1 = st.ICR1 ∧
    (Stepper_RotateAboutCenter s dir st).OCR1A = st.OCR1A ∧
    (Stepper_RotateAboutCenter s dir st).rampStage = st.rampStage := by
  unfold Stepper_RotateAboutCenter StartSteppers
  rw [run_mask_eq]
  by_cases hd : dir = 0 <;> simp [hd]

theorem wheel_fields (cfg : Config) (s w dir : Nat) (st : State) :
    (Stepper_RotateAboutWheel cfg s w dir st).stepsTaken = 0 ∧
    (Stepper_RotateAboutWheel cfg s w dir st).stepsToTake = s % 65536 ∧
    (Stepper_RotateAboutWheel cfg s w dir st).stepperFilter =
      (if w = cfg.LEFT then 0x40 else 0x08) ∧
    (Stepper_RotateAboutWheel cfg s w dir st).TCCR1B = st.TCCR1B ||| 3 ∧
    (Stepper_RotateAboutWheel cfg s w dir st).ICR1 = st.ICR1 ∧
    (Stepper_RotateAboutWheel cfg s w dir st).OCR1A = st.OCR1A ∧
    (Stepper_RotateAboutWheel cfg s w dir st).rampStage = st.rampStage := by
  unfold Stepper_RotateAboutWheel StartSteppers
  rw [run_mask_eq]
  by_cases hd : dir = 0 <;> by_cases hw : w = cfg.LEFT <;> simp [hd, hw]

/-- What every move command leaves behind, whatever the prior state. -/
theorem command_fields (cfg : Config) (c : Command) (st : State) :
    (c.run cfg st).stepsTaken = 0 ∧
    (c.run cfg st).stepsToTake = c.steps % 65536 ∧
    ((c.run cfg st).stepperFilter = 0xFF ∨ (c.run cfg st).stepperFilter = 0x40 ∨
      (c.run cfg st).stepperFilter = 0x08) ∧
    (c.run cfg st).TCCR1B = st.TCCR1B ||| 3 ∧
    (c.run cfg st).PORTA &&& 0x48 = st.PORTA &&& 0x48 ∧
    (c.run cfg st).ICR1 = st.ICR1 ∧
    (c.run cfg st).OCR1A = st.OCR1A ∧
    (c.run cfg st).rampStage = st.rampStage := by
  cases c with
  | straight n d =>
    obtain ⟨h1, h2, h3, h4, h5, h6, h7⟩ := straight_fields cfg n d st
    exact ⟨h1, h2, Or.inl h3, h4, straight_pulse cfg n d st, h5, h6, h7⟩
  | center n d =>
    obtain ⟨h1, h2, h3, h4, h5, h6, h7⟩ := center_fields n d st
    exact ⟨h1, h2, Or.inl h3, h4, center_pulse n d st, h5, h6, h7⟩
  | wheel n w d =>
    obtain ⟨h1, h2, h3, h4, h5, h6, h7⟩ := wheel_fields cfg n w d st
    refine ⟨h1, h2, ?_, h4, wheel_pulse cfg n w d st, h5, h6, h7⟩
    show (Stepper_RotateAboutWheel cfg n w d st).stepperFilter = 0xFF ∨
      (Stepper_RotateAboutWheel cfg n w d st).stepperFilter = 0x40 ∨
      (Stepper_RotateAboutWheel cfg n w d st).stepperFilter = 0x08
    rw [h3]
    by_cases hw : w = cfg.LEFT <;> simp [hw]

theorem filter_selects_pulse {f : Nat} (h : f = 0xFF ∨ f = 0x40 ∨ f = 0x08) :
    0x48 &&& f ≠ 0 := by
  rcases h with h | h | h <;> subst h <;> decide

/-- A move command issued while the pulse bits are clear starts the bookkeeping of
a move of `steps` steps. -/
theorem MoveInv.of_command (cfg : Config) (c : Command) (st : State)
    (h1 : 1 ≤ c.steps) (hs : c.steps ≤ 65535) (hp : pulseClear st) :
    MoveInv c.steps (c.run cfg st).stepperFilter 0 (c.run cfg st) := by
  obtain ⟨hT, hR, _, hB, hP, _⟩ := command_fields cfg c st
  refine ⟨by simpa using hT, ?_, rfl, ?_, ?_, ?_⟩
  · rw [hR]; omega
  · rw [hP]; simpa using hp
  · intro _; rw [hB]; exact started_running _
  · intro h; omega

/-- State of a move `n` ticks after a command issued with the pulse bits clear. -/
theorem move_after_ticks (cfg : Config) (c : Command) (st : State)
    (h1 : 1 ≤ c.steps) (hs : c.steps ≤ 65535) (hp : pulseClear st) (n : Nat)
    (hn : n ≤ 2 * c.steps) :
    MoveInv c.steps (c.run cfg st).stepperFilter n (ticks cfg n (c.run cfg st)) :=
  MoveInv.after_ticks cfg hs (filter_selects_pulse (command_fields cfg c st).2.2.1)
    (MoveInv.of_command cfg c st h1 hs hp) n hn

theorem timerRunning_iff (st : State) : timerRunning st ↔ st.TCCR1B &&& 3 ≠ 0 := by
  unfold timerRunning
  rw [run_mask_eq]

/-! ## Step counting -/

/-- C1 (exact step count).  After `Stepper_MoveStraight(s, dir)` or
`Stepper_RotateAboutCenter(s, dir)` with `1 ≤ s ≤ 65535`, issued in a state whose
pulse bits are clear, the state after `n ≤ 2 * s` handler invocations has both
pulse bits asserted when `n` is odd and both clear when `n` is even, has emitted
`(n + 1) / 2` pulses so far, leaves the timer running as long as `n < 2 * s`, and at
`n = 2 * s` has stopped the timer with `stepsTaken = s`, `stepsToTake = 0` and the
pulse bits clear. -/
theorem exact_step_count (cfg : Config) (s dir : Nat) (st st0 : State)
    (h1 : 1 ≤ s) (hs : s ≤ 65535) (hp : pulseClear st)
    (hcmd : st0 = Stepper_MoveStraight cfg s dir st ∨
      st0 = Stepper_RotateAboutCenter s dir st)
    (n : Nat) (hn : n ≤ 2 * s) :
    ((ticks cfg n st0).PORTA &&& 0x48 = if n % 2 = 1 then 0x48 else 0) ∧
    (ticks cfg n st0).stepsTaken = (n + 1) / 2 ∧
    (n < 2 * s → timerRunning (ticks cfg n st0)) ∧
    (n = 2 * s → ¬ timerRunning (ticks cfg n st0) ∧ (ticks cfg n st0).stepsTaken = s ∧
      (ticks cfg n st0).stepsToTake = 0 ∧ pulseClear (ticks cfg n st0)) := by
  have key : ∃ c : Command, c.steps = s ∧ st0 = c.run cfg st ∧
      (c.run cfg st).stepperFilter = 0xFF := by
    rcases hcmd with h | h
    · exact ⟨.straight s dir, rfl, h, (straight_fields cfg s dir st).2.2.1⟩
    · exact ⟨.center s dir, rfl, h, (center_fields s dir st).2.2.1⟩
  obtain ⟨c, hc, hst0, hflt⟩ := key
  subst hc
  have inv := move_after_ticks cfg c st h1 hs hp n hn
  rw [hflt, ← hst0] at inv
  obtain ⟨hT, hR, _, hP, hrun, hstop⟩ := inv
  refine ⟨?_, hT, ?_, ?_⟩
  · rw [hP, show (0x48 &&& 0xFF : Nat) = 0x48 by decide]
  · intro hlt
    rw [timerRunning_iff, hrun hlt]
    decide
  · intro heq
    refine ⟨?_, ?_, ?_, ?_⟩
    · rw [timerRunning_iff, hstop heq]
      simp
    · rw [hT]; omega
    · rw [hR]; omega
    · unfold pulseClear
      rw [hP]
      have : ¬ (n % 2 = 1) := by omega
      simp [this]

/-- C1 at a concrete move: three steps straight from the all-zero state, observed
at the sixth tick. -/
theorem exact_step_count_witness :
    (1 ≤ 3 ∧ 3 ≤ 65535 ∧ pulseClear zeroState) ∧
    (((ticks sampleConfig 6 (Stepper_MoveStraight sampleConfig 3 1 zeroState)).PORTA
        &&& 0x48 = if 6 % 2 = 1 then 0x48 else 0) ∧
      (ticks sampleConfig 6 (Stepper_MoveStraight sampleConfig 3 1 zeroState)).stepsTaken
        = (6 + 1) / 2 ∧
      (6 < 2 * 3 →
        timerRunning (ticks sampleConfig 6 (Stepper_MoveStraight sampleConfig 3 1 zeroState))) ∧
      (6 = 2 * 3 →
        ¬ timerRunning (ticks sampleConfig 6 (Stepper_MoveStraight sampleConfig 3 1 zeroState)) ∧
        (ticks sampleConfig 6 (Stepper_MoveStraight sampleConfig 3 1 zeroState)).stepsTaken = 3 ∧
        (ticks sampleConfig 6 (Stepper_MoveStraight sampleConfig 3 1 zeroState)).stepsToTake = 0 ∧
        pulseClear (ticks sampleConfig 6 (Stepper_MoveStraight sampleConfig 3 1 zeroState)))) :=
  ⟨⟨by decide, by decide, by decide⟩,
    exact_step_count sampleConfig 3 1 zeroState _ (by decide) (by decide) (by decide)
      (Or.inl rfl) 6 (by decide)⟩

/-- C2, the claim at `s = 0`: right after `Stepper_Init` and a move command of zero
steps (no tick yet, `2 * 0 = 0`), the timer is running, so "`stepsToTake == 0` and
the timer is stopped" does not hold. -/
theorem completion_zero_steps_counterexample :
    ¬ ((ticks sampleConfig (2 * 0)
          (Stepper_MoveStraight sampleConfig 0 1 (Stepper_Init sampleConfig 1 zeroState))).stepsToTake = 0 ∧
       ¬ timerRunning (ticks sampleConfig (2 * 0)
          (Stepper_MoveStraight sampleConfig 0 1 (Stepper_Init sampleConfig 1 zeroState)))) := by
  decide

theorem init_pulseClear (cfg : Config) (mode : Nat) (prior : State) :
    pulseClear (Stepper_Init cfg mode prior) := by
  unfold pulseClear Stepper_Init
  by_cases hm : mode = cfg._HALFSTEPPINGMODE_
  · simp [hm]
  · simp only [hm, if_false]
    decide

/-- C2 as amended (monotonic completion for a non-empty move).  From the state left
by `Stepper_Init`, after any move command with `1 ≤ steps ≤ 65535` and exactly
`2 * steps` handler invocations, `stepsToTake = 0` and the timer is stopped. -/
theorem completion_after_two_ticks_per_step (cfg : Config) (mode : Nat) (prior : State)
    (c : Command) (h1 : 1 ≤ c.steps) (hs : c.steps ≤ 65535) :
    (ticks cfg (2 * c.steps) (c.run cfg (Stepper_Init cfg mode prior))).stepsToTake = 0 ∧
    ¬ timerRunning (ticks cfg (2 * c.steps) (c.run cfg (Stepper_Init cfg mode prior))) := by
  have inv := move_after_ticks cfg c (Stepper_Init cfg mode prior) h1 hs
    (init_pulseClear cfg mode prior) (2 * c.steps) (Nat.le_refl _)
  obtain ⟨_, hR, _, _, _, hstop⟩ := inv
  refine ⟨?_, ?_⟩
  · rw [hR]; omega
  · rw [timerRunning_iff, hstop rfl]
    simp

/-- C2 as amended, at a move of two steps about the left wheel. -/
theorem completion_after_two_ticks_per_step_witness :
    (1 ≤ (Command.wheel 2 1 0).steps ∧ (Command.wheel 2 1 0).steps ≤ 65535) ∧
    ((ticks sampleConfig (2 * (Command.wheel 2 1 0).steps)
        ((Command.wheel 2 1 0).run sampleConfig
          (Stepper_Init sampleConfig 1 zeroState))).stepsToTake = 0 ∧
     ¬ timerRunning (ticks sampleConfig (2 * (Command.wheel 2 1 0).steps)
        ((Command.wheel 2 1 0).run sampleConfig
          (Stepper_Init sampleConfig 1 zeroState)))) :=
  ⟨⟨by decide, by decide⟩,
    completion_after_two_ticks_per_step sampleConfig 1 zeroState (Command.wheel 2 1 0)
      (by decide) (by decide)⟩

set_option maxRecDepth 20000

/-! ## The ramp update -/

/-- C3 (ramp-stage selection).  The handler's two-branch ramp update coincides with
the single-`min` formulation on every state, hence for every pair
`(stepsTaken, stepsToTake)` left by the pulse sub-phase, the midpoint
`stepsTaken = stepsToTake` included; so one handler invocation is the pulse
sub-phase followed by the `min` update. -/
theorem rampUpdate_eq_min (cfg : Config) (st : State) :
    rampUpdate cfg st = rampUpdateMin cfg st ∧
    SIG_OUTPUT_COMPARE1A cfg st = rampUpdateMin cfg (pulsePhase st) := by
  have key : ∀ t : State, rampUpdate cfg t = rampUpdateMin cfg t := by
    intro t
    unfold rampUpdate rampUpdateMin programRamp
    dsimp only
    rcases Nat.lt_or_ge t.stepsTaken t.stepsToTake with hlt | hge
    · rw [Nat.min_eq_left (Nat.le_of_lt hlt)]
      by_cases hd : t.stepsTaken < cfg.RAMPDURATION
      · simp [hd, hlt]
      · have h2 : ¬ t.stepsToTake ≤ t.stepsTaken := by omega
        simp [hd, h2]
    · rw [Nat.min_eq_right hge]
      have h1 : ¬ t.stepsTaken < t.stepsToTake := by omega
      by_cases hd : t.stepsToTake < cfg.RAMPDURATION
      · simp [hd, h1, hge]
      · simp [hd, h1]
  exact ⟨key st, key (pulsePhase st)⟩

/-- The index `rampIndexUsed` reports is the one the handler stores in `rampStage`
and reads the table with; when it reports none the three ramp objects are kept. -/
theorem rampIndexUsed_spec (cfg : Config) (st : State) :
    rampRegs (SIG_OUTPUT_COMPARE1A cfg st) =
      match rampIndexUsed cfg st with
      | some i => (i, toU16 (rampArray cfg i), toU16 (rampArray cfg i) / 2)
      | none => rampRegs st := by
  unfold SIG_OUTPUT_COMPARE1A rampUpdate rampIndexUsed rampRegs programRamp
  dsimp only
  split_ifs <;> simp

theorem reachable_ticks (cfg : Config) (st : State) (h : Reachable cfg st) :
    ∀ n, (∀ k, k < n → timerRunning (ticks cfg k st)) → Reachable cfg (ticks cfg n st) := by
  intro n
  induction n with
  | zero => intro _; exact h
  | succ n ih =>
    intro hrun
    exact Reachable.tick _ (hrun n (Nat.lt_succ_self n))
      (ih (fun k hk => hrun k (Nat.lt_succ_of_lt hk)))

/-- C4, a configuration that meets the stated constraint and still leaves the table:
with `RAMPDURATION = 7`, `RAMPINTERVAL = 2`, `RAMPSTAGES = 3` (`7 / 2 = 3`), after
`Stepper_Init`, a move of 20 steps and ten ticks, the eleventh tick (the sixth
leading edge) computes `rampStage = 6 / 2 = 3` and reads `rampArray[3]`. -/
theorem ramp_index_counterexample :
    1 ≤ oddConfig.RAMPINTERVAL ∧
    oddConfig.RAMPDURATION / oddConfig.RAMPINTERVAL = oddConfig.RAMPSTAGES ∧
    Reachable oddConfig
      (ticks oddConfig 10 (Stepper_MoveStraight oddConfig 20 1
        (Stepper_Init oddConfig 1 zeroState))) ∧
    rampIndexUsed oddConfig
      (ticks oddConfig 10 (Stepper_MoveStraight oddConfig 20 1
        (Stepper_Init oddConfig 1 zeroState))) = some 3 ∧
    (ticks oddConfig 11 (Stepper_MoveStraight oddConfig 20 1
        (Stepper_Init oddConfig 1 zeroState))).rampStage = 3 ∧
    ¬ (3 ≤ oddConfig.RAMPSTAGES - 1) := by
  refine ⟨by decide, by decide, ?_, by decide, by decide, by decide⟩
  apply reachable_ticks
  · exact Reachable.command (.straight 20 1) _ (by decide) (Reachable.init 1 zeroState)
  · decide

theorem rampIndexUsed_lt (cfg : Config) (hI : 1 ≤ cfg.RAMPINTERVAL)
    (hD : cfg.RAMPDURATION ≤ cfg.RAMPSTAGES * cfg.RAMPINTERVAL)
    (st : State) (i : Nat) (hi : rampIndexUsed cfg st = some i) :
    i < cfg.RAMPSTAGES := by
  have bound : ∀ t : Nat, t < cfg.RAMPDURATION →
      (t / cfg.RAMPINTERVAL) % 256 < cfg.RAMPSTAGES := by
    intro t ht
    have h1 : t / cfg.RAMPINTERVAL < cfg.RAMPSTAGES :=
      (Nat.div_lt_iff_lt_mul (by omega)).2 (by omega)
    exact Nat.lt_of_le_of_lt (Nat.mod_le _ _) h1
  unfold rampIndexUsed at hi
  dsimp only at hi
  split_ifs at hi with ha hb
  · cases hi
    exact bound _ ha.1
  · cases hi
    exact bound _ hb.1

/-- C4 as amended (the table is never left).  When `RAMPINTERVAL ≥ 1` and
`RAMPDURATION ≤ RAMPSTAGES * RAMPINTERVAL` (in particular when `RAMPDURATION` is
exactly `RAMPSTAGES * RAMPINTERVAL`), in every state reachable from `Stepper_Init`
through move commands and ticks, the index the handler computes and reads
`rampArray` with is below `RAMPSTAGES`; and, the table being non-empty, so is the
`rampStage` the state holds. -/
theorem ramp_index_in_range (cfg : Config) (hI : 1 ≤ cfg.RAMPINTERVAL)
    (hD : cfg.RAMPDURATION ≤ cfg.RAMPSTAGES * cfg.RAMPINTERVAL)
    (st : State) (hr : Reachable cfg st) :
    (∀ i, rampIndexUsed cfg st = some i → i < cfg.RAMPSTAGES) ∧
    (1 ≤ cfg.RAMPSTAGES → st.rampStage < cfg.RAMPSTAGES) := by
  refine ⟨fun i hi => rampIndexUsed_lt cfg hI hD st i hi, ?_⟩
  intro hN
  induction hr with
  | init mode prior => exact hN
  | command c st0 _ _ ih =>
    rw [(command_fields cfg c st0).2.2.2.2.2.2.2]
    exact ih
  | tick st0 _ _ ih =>
    have hspec : (SIG_OUTPUT_COMPARE1A cfg st0).rampStage =
        (match rampIndexUsed cfg st0 with
          | some i => (i, toU16 (rampArray cfg i), toU16 (rampArray cfg i) / 2)
          | none => rampRegs st0).1 :=
      congrArg (fun r => r.1) (rampIndexUsed_spec cfg st0)
    cases hidx : rampIndexUsed cfg st0 with
    | none =>
      rw [hidx] at hspec
      rw [hspec]
      exact ih
    | some i =>
      rw [hidx] at hspec
      rw [hspec]
      exact rampIndexUsed_lt cfg hI hD st0 i hidx

/-- C4 as amended, at the first tick of a three-step move in the sample build. -/
theorem ramp_index_in_range_witness :
    (1 ≤ sampleConfig.RAMPINTERVAL ∧
      sampleConfig.RAMPDURATION ≤ sampleConfig.RAMPSTAGES * sampleConfig.RAMPINTERVAL ∧
      Reachable sampleConfig
        ((Command.straight 3 1).run sampleConfig (Stepper_Init sampleConfig 1 zeroState))) ∧
    ((∀ i, rampIndexUsed sampleConfig
        ((Command.straight 3 1).run sampleConfig (Stepper_Init sampleConfig 1 zeroState))
          = some i → i < sampleConfig.RAMPSTAGES) ∧
     (1 ≤ sampleConfig.RAMPSTAGES →
      ((Command.straight 3 1).run sampleConfig
        (Stepper_Init sampleConfig 1 zeroState)).rampStage < sampleConfig.RAMPSTAGES)) :=
  ⟨⟨by decide, by decide,
      Reachable.command (.straight 3 1) _ (by decide) (Reachable.init 1 zeroState)⟩,
    ramp_index_in_range sampleConfig (by decide) (by decide) _
      (Reachable.command (.straight 3 1) _ (by decide) (Reachable.init 1 zeroState))⟩

/-! ## The period over the course of a move -/

/-- The ramp objects after one handler invocation, read off the step counters the
invocation leaves behind. -/
theorem tick_rampRegs (cfg : Config) (st : State) :
    rampRegs (SIG_OUTPUT_COMPARE1A cfg st) =
      if (SIG_OUTPUT_COMPARE1A cfg st).stepsTaken < cfg.RAMPDURATION ∧
          (SIG_OUTPUT_COMPARE1A cfg st).stepsTaken < (SIG_OUTPUT_COMPARE1A cfg st).stepsToTake then
        programmed cfg ((SIG_OUTPUT_COMPARE1A cfg st).stepsTaken / cfg.RAMPINTERVAL)
      else if (SIG_OUTPUT_COMPARE1A cfg st).stepsToTake < cfg.RAMPDURATION ∧
          (SIG_OUTPUT_COMPARE1A cfg st).stepsToTake ≤ (SIG_OUTPUT_COMPARE1A cfg st).stepsTaken then
        programmed cfg ((SIG_OUTPUT_COMPARE1A cfg st).stepsToTake / cfg.RAMPINTERVAL)
      else rampRegs st := by
  simp only [SIG_OUTPUT_COMPARE1A, rampUpdate_stepsTaken, rampUpdate_stepsToTake]
  unfold rampUpdate rampRegs programmed programRamp
  dsimp only
  split_ifs <;> simp

/-- The ramp objects `n + 1` ticks into a move, in terms of the step counters. -/
theorem move_rampRegs (cfg : Config) (c : Command) (st : State)
    (h1 : 1 ≤ c.steps) (hs : c.steps ≤ 65535) (hp : pulseClear st) (n : Nat)
    (hn : n + 1 ≤ 2 * c.steps) :
    rampRegs (ticks cfg (n + 1) (c.run cfg st)) =
      if (n + 2) / 2 < cfg.RAMPDURATION ∧ (n + 2) / 2 < c.steps - (n + 2) / 2 then
        programmed cfg ((n + 2) / 2 / cfg.RAMPINTERVAL)
      else if c.steps - (n + 2) / 2 < cfg.RAMPDURATION ∧
          c.steps - (n + 2) / 2 ≤ (n + 2) / 2 then
        programmed cfg ((c.steps - (n + 2) / 2) / cfg.RAMPINTERVAL)
      else rampRegs (ticks cfg n (c.run cfg st)) := by
  obtain ⟨hT, hR, _⟩ := move_after_ticks cfg c st h1 hs hp (n + 1) hn
  have h := tick_rampRegs cfg (ticks cfg n (c.run cfg st))
  have e : SIG_OUTPUT_COMPARE1A cfg (ticks cfg n (c.run cfg st)) =
      ticks cfg (n + 1) (c.run cfg st) := rfl
  rw [e, hT, hR] at h
  exact h

/-- Acceleration: while fewer than `RAMPDURATION` steps are taken and more remain
than are taken, the period is the table entry of the steps taken. -/
theorem move_accel (cfg : Config) (c : Command) (st : State)
    (hs : c.steps ≤ 65535) (hp : pulseClear st) (k : Nat) (hk1 : 1 ≤ k)
    (hkD : k < cfg.RAMPDURATION) (hk : k < c.steps - k) :
    rampRegs (ticks cfg (2 * k - 1) (c.run cfg st)) = programmed cfg (k / cfg.RAMPINTERVAL) ∧
    rampRegs (ticks cfg (2 * k) (c.run cfg st)) = programmed cfg (k / cfg.RAMPINTERVAL) := by
  have ha := move_rampRegs cfg c st (by omega) hs hp (2 * k - 2) (by omega)
  have hb := move_rampRegs cfg c st (by omega) hs hp (2 * k - 1) (by omega)
  have e1 : 2 * k - 2 + 1 = 2 * k - 1 := by omega
  have e2 : 2 * k - 1 + 1 = 2 * k := by omega
  have e3 : (2 * k - 2 + 2) / 2 = k := by omega
  have e4 : (2 * k - 1 + 2) / 2 = k := by omega
  rw [e1, e3, if_pos ⟨hkD, hk⟩] at ha
  rw [e2, e4, if_pos ⟨hkD, hk⟩] at hb
  exact ⟨ha, hb⟩

/-- Deceleration: once fewer than `RAMPDURATION` steps remain and no more remain
than are taken, the period is the table entry of the steps remaining. -/
theorem move_decel (cfg : Config) (c : Command) (st : State)
    (hs : c.steps ≤ 65535) (hp : pulseClear st) (j : Nat) (hj1 : 1 ≤ j)
    (hjs : j ≤ c.steps) (hjD : c.steps - j < cfg.RAMPDURATION) (hj : c.steps - j ≤ j) :
    rampRegs (ticks cfg (2 * j - 1) (c.run cfg st)) =
      programmed cfg ((c.steps - j) / cfg.RAMPINTERVAL) := by
  have ha := move_rampRegs cfg c st (by omega) hs hp (2 * j - 2) (by omega)
  have e1 : 2 * j - 2 + 1 = 2 * j - 1 := by omega
  have e3 : (2 * j - 2 + 2) / 2 = j := by omega
  have hno : ¬ (j < cfg.RAMPDURATION ∧ j < c.steps - j) := by omega
  rw [e1, e3, if_neg hno, if_pos ⟨hjD, hj⟩] at ha
  exact ha

/-- Cruise: from the trailing edge of step `RAMPDURATION - 1` up to the trailing
edge of step `steps - RAMPDURATION` no tick reprograms the period. -/
theorem move_cruise (cfg : Config) (c : Command) (st : State)
    (h1 : 1 ≤ c.steps) (hs : c.steps ≤ 65535) (hp : pulseClear st) :
    ∀ n, 2 * cfg.RAMPDURATION - 2 ≤ n → n ≤ 2 * (c.steps - cfg.RAMPDURATION) →
      rampRegs (ticks cfg n (c.run cfg st)) =
        rampRegs (ticks cfg (2 * cfg.RAMPDURATION - 2) (c.run cfg st)) := by
  intro n
  induction n with
  | zero =>
    intro hlo _
    have : 2 * cfg.RAMPDURATION - 2 = 0 := by omega
    rw [this]
  | succ n ih =>
    intro hlo hhi
    rcases Nat.eq_or_lt_of_le hlo with heq | hlt
    · rw [heq]
    · have hstep := move_rampRegs cfg c st h1 hs hp n (by omega)
      have hno1 : ¬ ((n + 2) / 2 < cfg.RAMPDURATION ∧ (n + 2) / 2 < c.steps - (n + 2) / 2) := by
        omega
      have hno2 : ¬ (c.steps - (n + 2) / 2 < cfg.RAMPDURATION ∧
          c.steps - (n + 2) / 2 ≤ (n + 2) / 2) := by
        omega
      rw [if_neg hno1, if_neg hno2] at hstep
      rw [hstep]
      exact ih (by omega) (by omega)

theorem rampRegs_ICR1 {a b : State} (h : rampRegs a = rampRegs b) : a.ICR1 = b.ICR1 :=
  congrArg (fun r => r.2.1) h

theorem rampRegs_ICR1_eq {a : State} {r : Nat × Nat × Nat} (h : rampRegs a = r) :
    a.ICR1 = r.2.1 := by
  rw [← h]
  rfl

/-- C5 (ramp symmetry).  In a move of `steps ≥ 2 * RAMPDURATION` (at most 65535)
issued by any move command while the pulse bits are clear, for every `k` with
`1 ≤ k ≤ RAMPDURATION` the period `ICR1` after the `k`-th emitted step (tick
`2k - 1`) equals the period after the `(steps - k)`-th emitted step (tick
`2 (steps - k) - 1`). -/
theorem ramp_symmetry (cfg : Config) (c : Command) (st : State)
    (hs : c.steps ≤ 65535) (hp : pulseClear st)
    (h2 : 2 * cfg.RAMPDURATION ≤ c.steps) (k : Nat) (hk1 : 1 ≤ k)
    (hk : k ≤ cfg.RAMPDURATION) :
    (ticks cfg (2 * k - 1) (c.run cfg st)).ICR1 =
      (ticks cfg (2 * (c.steps - k) - 1) (c.run cfg st)).ICR1 := by
  apply rampRegs_ICR1
  rcases Nat.lt_or_ge k cfg.RAMPDURATION with hlt | hge
  · have ha := (move_accel cfg c st hs hp k hk1 hlt (by omega)).1
    have hb := move_decel cfg c st hs hp (c.steps - k) (by omega) (by omega)
      (by omega) (by omega)
    have e : c.steps - (c.steps - k) = k := by omega
    rw [e] at hb
    rw [ha, hb]
  · have ha := move_cruise cfg c st (by omega) hs hp (2 * k - 1) (by omega) (by omega)
    have hb := move_cruise cfg c st (by omega) hs hp (2 * (c.steps - k) - 1)
      (by omega) (by omega)
    rw [ha, hb]

/-- C5 at a move of 250 steps in the sample build (`RAMPDURATION = 100`), `k = 37`. -/
theorem ramp_symmetry_witness :
    ((Command.center 250 0).steps ≤ 65535 ∧ pulseClear zeroState ∧
      2 * sampleConfig.RAMPDURATION ≤ (Command.center 250 0).steps ∧ 1 ≤ 37 ∧
      37 ≤ sampleConfig.RAMPDURATION) ∧
    (ticks sampleConfig (2 * 37 - 1) ((Command.center 250 0).run sampleConfig zeroState)).ICR1 =
      (ticks sampleConfig (2 * ((Command.center 250 0).steps - 37) - 1)
        ((Command.center 250 0).run sampleConfig zeroState)).ICR1 :=
  ⟨⟨by decide, by decide, by decide, by decide, by decide⟩,
    ramp_symmetry sampleConfig (Command.center 250 0) zeroState (by decide) (by decide)
      (by decide) 37 (by decide) (by decide)⟩

theorem last_stage_quotient (n i : Nat) (hn : 1 ≤ n) (hi : 1 ≤ i) :
    (n * i - 1) / i = n - 1 := by
  obtain ⟨m, rfl⟩ : ∃ m, n = m + 1 := ⟨n - 1, by omega⟩
  apply Nat.div_eq_of_lt_le
  · rw [Nat.succ_mul] ; simp only [Nat.add_sub_cancel]; omega
  · rw [Nat.add_sub_cancel, Nat.succ_mul]; omega

/-- C6, two moves on which the plateau period is not the terminal table entry.
(1) A table of 257 stages (`RAMPDURATION = 257 * 1`), `Stepper_Init`, then a move
of 515 steps: after step 257 the period is `rampArray[0] = 30000`, because the
handler stored `256` in the `unsigned char rampStage`, which holds `0`; the terminal
entry `rampArray[256]` is 4400.  (2) A single stage of one step
(`RAMPDURATION = 1 * 1`) and an idle state whose period register holds 5: no tick
of a three-step move reprograms the period before the plateau, so after step 1 it
is still 5, not `rampArray[0] = 1000`. -/
theorem cruise_plateau_counterexample :
    (longConfig.RAMPDURATION = longConfig.RAMPSTAGES * longConfig.RAMPINTERVAL ∧
      1 ≤ longConfig.RAMPINTERVAL ∧ 2 * longConfig.RAMPDURATION < 515 ∧
      longConfig.RAMPDURATION ≤ 257 ∧ 257 ≤ 515 - longConfig.RAMPDURATION ∧
      pulseClear (Stepper_Init longConfig 1 zeroState) ∧
      (ticks longConfig (2 * 257 - 1)
        (Stepper_MoveStraight longConfig 515 1 (Stepper_Init longConfig 1 zeroState))).ICR1
        = 30000 ∧
      toU16 (rampArray longConfig (longConfig.RAMPSTAGES - 1)) = 4400) ∧
    (oneStageConfig.RAMPDURATION = oneStageConfig.RAMPSTAGES * oneStageConfig.RAMPINTERVAL ∧
      1 ≤ oneStageConfig.RAMPINTERVAL ∧ 2 * oneStageConfig.RAMPDURATION < 3 ∧
      oneStageConfig.RAMPDURATION ≤ 1 ∧ 1 ≤ 3 - oneStageConfig.RAMPDURATION ∧
      pulseClear staleState ∧
      (ticks oneStageConfig (2 * 1 - 1)
        (Stepper_MoveStraight oneStageConfig 3 1 staleState)).ICR1 = 5 ∧
      toU16 (rampArray oneStageConfig (oneStageConfig.RAMPSTAGES - 1)) = 1000) := by
  refine ⟨⟨by decide, by decide, by decide, by decide, by decide, by decide, ?_, by decide⟩,
    by decide⟩
  have hc := move_cruise longConfig (.straight 515 1) (Stepper_Init longConfig 1 zeroState)
    (by decide) (by decide) (by decide) (2 * 257 - 1) (by decide) (by decide)
  have ha := (move_accel longConfig (.straight 515 1) (Stepper_Init longConfig 1 zeroState)
    (by decide) (by decide) 256 (by decide) (by decide) (by decide)).2
  have e := rampRegs_ICR1_eq (hc.trans ha)
  have v : (programmed longConfig (256 / longConfig.RAMPINTERVAL)).2.1 = 30000 := by decide
  exact e.trans v

/-- C6 as amended (cruise plateau).  Assume `RAMPDURATION = RAMPSTAGES *
RAMPINTERVAL` with `RAMPINTERVAL ≥ 1` and `1 ≤ RAMPSTAGES ≤ 256`, and a move of
`steps > 2 * RAMPDURATION` (at most 65535) issued while the pulse bits are clear;
when `RAMPDURATION = 1` assume also that the idle state holds the period of
`rampArray[0]`, as `Stepper_Init` leaves it.  Then for every `k` with
`RAMPDURATION ≤ k ≤ steps - RAMPDURATION`, after the `k`-th emitted step `ICR1` is
the terminal table entry `rampArray[RAMPSTAGES - 1]` and `OCR1A` is half of it. -/
theorem cruise_plateau (cfg : Config) (c : Command) (st : State)
    (hI : 1 ≤ cfg.RAMPINTERVAL)
    (hD : cfg.RAMPDURATION = cfg.RAMPSTAGES * cfg.RAMPINTERVAL)
    (hN1 : 1 ≤ cfg.RAMPSTAGES) (hN : cfg.RAMPSTAGES ≤ 256)
    (hs : c.steps ≤ 65535) (hp : pulseClear st)
    (hidle : cfg.RAMPDURATION = 1 →
      st.ICR1 = toU16 (rampArray cfg 0) ∧ st.OCR1A = st.ICR1 / 2)
    (h2 : 2 * cfg.RAMPDURATION < c.steps) (k : Nat) (hkD : cfg.RAMPDURATION ≤ k)
    (hk : k ≤ c.steps - cfg.RAMPDURATION) :
    (ticks cfg (2 * k - 1) (c.run cfg st)).ICR1 = toU16 (rampArray cfg (cfg.RAMPSTAGES - 1)) ∧
    (ticks cfg (2 * k - 1) (c.run cfg st)).OCR1A =
      toU16 (rampArray cfg (cfg.RAMPSTAGES - 1)) / 2 := by
  have hD1 : 1 ≤ cfg.RAMPDURATION := by
    rw [hD]; exact Nat.mul_le_mul hN1 hI
  have hc := move_cruise cfg c st (by omega) hs hp (2 * k - 1) (by omega) (by omega)
  have key : rampRegs (ticks cfg (2 * cfg.RAMPDURATION - 2) (c.run cfg st)) =
      (cfg.RAMPSTAGES - 1, toU16 (rampArray cfg (cfg.RAMPSTAGES - 1)),
        toU16 (rampArray cfg (cfg.RAMPSTAGES - 1)) / 2) ∨
      (rampRegs (ticks cfg (2 * cfg.RAMPDURATION - 2) (c.run cfg st))).2 =
      (toU16 (rampArray cfg (cfg.RAMPSTAGES - 1)),
        toU16 (rampArray cfg (cfg.RAMPSTAGES - 1)) / 2) := by
    rcases Nat.eq_or_lt_of_le hD1 with h1 | hgt
    · right
      have hN' : cfg.RAMPSTAGES = 1 := by
        have h3 : cfg.RAMPSTAGES * cfg.RAMPINTERVAL = 1 := by omega
        exact Nat.eq_one_of_mul_eq_one_right h3
      obtain ⟨hi1, hi2⟩ := hidle h1.symm
      obtain ⟨_, _, _, _, _, h6, h7, _⟩ := command_fields cfg c st
      have e0 : 2 * cfg.RAMPDURATION - 2 = 0 := by omega
      rw [e0, hN']
      show ((ticks cfg 0 (c.run cfg st)).ICR1, (ticks cfg 0 (c.run cfg st)).OCR1A) = _
      show ((c.run cfg st).ICR1, (c.run cfg st).OCR1A) = _
      rw [h6, h7, hi2, hi1]
    · left
      have ha := (move_accel cfg c st hs hp (cfg.RAMPDURATION - 1) (by omega) (by omega)
        (by omega)).2
      have e1 : 2 * (cfg.RAMPDURATION - 1) = 2 * cfg.RAMPDURATION - 2 := by omega
      rw [e1] at ha
      rw [ha, hD, last_stage_quotient _ _ hN1 hI]
      unfold programmed
      rw [Nat.mod_eq_of_lt (by omega)]
  rcases key with h | h
  · rw [h] at hc
    exact ⟨congrArg (fun r => r.2.1) hc, congrArg (fun r => r.2.2) hc⟩
  · have hc2 := congrArg (fun r => r.2) hc
    simp only at hc2
    rw [h] at hc2
    exact ⟨congrArg (fun r => r.1) hc2, congrArg (fun r => r.2) hc2⟩

/-- C6 as amended, at a move of 250 steps in the sample build, `k = 120`. -/
theorem cruise_plateau_witness :
    (1 ≤ sampleConfig.RAMPINTERVAL ∧
      sampleConfig.RAMPDURATION = sampleConfig.RAMPSTAGES * sampleConfig.RAMPINTERVAL ∧
      1 ≤ sampleConfig.RAMPSTAGES ∧ sampleConfig.RAMPSTAGES ≤ 256 ∧
      (Command.straight 250 1).steps ≤ 65535 ∧ pulseClear zeroState ∧
      (sampleConfig.RAMPDURATION = 1 →
        zeroState.ICR1 = toU16 (rampArray sampleConfig 0) ∧
        zeroState.OCR1A = zeroState.ICR1 / 2) ∧
      2 * sampleConfig.RAMPDURATION < (Command.straight 250 1).steps ∧
      sampleConfig.RAMPDURATION ≤ 120 ∧
      120 ≤ (Command.straight 250 1).steps - sampleConfig.RAMPDURATION) ∧
    ((ticks sampleConfig (2 * 120 - 1)
        ((Command.straight 250 1).run sampleConfig zeroState)).ICR1 =
      toU16 (rampArray sampleConfig (sampleConfig.RAMPSTAGES - 1)) ∧
     (ticks sampleConfig (2 * 120 - 1)
        ((Command.straight 250 1).run sampleConfig zeroState)).OCR1A =
      toU16 (rampArray sampleConfig (sampleConfig.RAMPSTAGES - 1)) / 2) :=
  ⟨⟨by decide, by decide, by decide, by decide, by decide, by decide, by decide, by decide,
      by decide, by decide⟩,
    cruise_plateau sampleConfig (Command.straight 250 1) zeroState (by decide) (by decide)
      (by decide) (by decide) (by decide) (by decide) (by decide) (by decide) 120
      (by decide) (by decide)⟩

/-! ## Move commands -/

theorem or_and_self (p m : Nat) : (p ||| m) &&& m = m := by
  apply Nat.eq_of_testBit_eq
  intro i
  simp only [Nat.testBit_or, Nat.testBit_and]
  cases (Nat.testBit m i) <;> simp

theorem straight_dir (cfg : Config) (s dir : Nat) (st : State) :
    (Stepper_MoveStraight cfg s dir st).PORTA &&& 0x24 =
      if dir = cfg.FORWARD then 0x20 else 0x04 := by
  unfold Stepper_MoveStraight StartSteppers
  by_cases hd : dir = cfg.FORWARD
  · simp only [hd, if_true]
    rw [and_and_mask _ 0xFB 0x24 0x20 (by decide)]
    exact or_and_self _ _
  · simp only [hd, if_false]
    rw [and_and_mask _ 0xDF 0x24 0x04 (by decide)]
    exact or_and_self _ _

theorem center_dir (s dir : Nat) (st : State) :
    (Stepper_RotateAboutCenter s dir st).PORTA &&& 0x24 = if dir = 0 then 0x24 else 0 := by
  unfold Stepper_RotateAboutCenter StartSteppers
  by_cases hd : dir = 0
  · simp only [hd, if_true]
    exact or_and_self _ _
  · simp only [hd, if_false]
    rw [and_and_mask _ 0xDB 0x24 0 (by decide), Nat.and_zero]

theorem wheel_dir (cfg : Config) (s w dir : Nat) (st : State) :
    (Stepper_RotateAboutWheel cfg s w dir st).PORTA &&& 0x24 = if dir = 0 then 0x24 else 0 := by
  unfold Stepper_RotateAboutWheel StartSteppers
  by_cases hd : dir = 0 <;> by_cases hw : w = cfg.LEFT
  · simp only [hd, hw, if_true]
    exact or_and_self _ _
  · simp only [hd, hw, if_true, if_false]
    exact or_and_self _ _
  · simp only [hd, hw, if_true, if_false]
    rw [and_and_mask _ 0xDB 0x24 0 (by decide), Nat.and_zero]
  · simp only [hd, hw, if_false]
    rw [and_and_mask _ 0xDB 0x24 0 (by decide), Nat.and_zero]

theorem command_running (cfg : Config) (c : Command) (st : State) :
    timerRunning (c.run cfg st) := by
  rw [timerRunning_iff, (command_fields cfg c st).2.2.2.1, started_running]
  decide

/-- C7 (preemption leaves no residue).  For every move command with
`steps < 65536` and any two prior states, the state right after the command has
`stepsTaken = 0`, `stepsToTake = steps`, the filter of the command (`0xFF` for
straight and rotate-about-center, `0x40` or `0x08` for rotate-about-wheel), the
direction bits 5 and 2 of `PORTA` (mask `0x24`) of the command, and a running timer;
each of these is the same from both prior states. -/
theorem preemption_no_residue (cfg : Config) (c : Command) (st1 st2 : State)
    (hs : c.steps < 65536) :
    ((c.run cfg st1).stepsTaken = 0 ∧
      (c.run cfg st1).stepsToTake = c.steps ∧
      (c.run cfg st1).stepperFilter =
        (match c with
          | .straight _ _ => 0xFF
          | .center _ _ => 0xFF
          | .wheel _ w _ => if w = cfg.LEFT then 0x40 else 0x08) ∧
      (c.run cfg st1).PORTA &&& 0x24 =
        (match c with
          | .straight _ d => if d = cfg.FORWARD then 0x20 else 0x04
          | .center _ d => if d = 0 then 0x24 else 0
          | .wheel _ _ d => if d = 0 then 0x24 else 0) ∧
      timerRunning (c.run cfg st1)) ∧
    ((c.run cfg st1).stepsTaken = (c.run cfg st2).stepsTaken ∧
      (c.run cfg st1).stepsToTake = (c.run cfg st2).stepsToTake ∧
      (c.run cfg st1).stepperFilter = (c.run cfg st2).stepperFilter ∧
      (c.run cfg st1).PORTA &&& 0x24 = (c.run cfg st2).PORTA &&& 0x24 ∧
      (timerRunning (c.run cfg st1) ↔ timerRunning (c.run cfg st2))) := by
  have one : ∀ st : State,
      (c.run cfg st).stepsTaken = 0 ∧
      (c.run cfg st).stepsToTake = c.steps ∧
      (c.run cfg st).stepperFilter =
        (match c with
          | .straight _ _ => 0xFF
          | .center _ _ => 0xFF
          | .wheel _ w _ => if w = cfg.LEFT then 0x40 else 0x08) ∧
      (c.run cfg st).PORTA &&& 0x24 =
        (match c with
          | .straight _ d => if d = cfg.FORWARD then 0x20 else 0x04
          | .center _ d => if d = 0 then 0x24 else 0
          | .wheel _ _ d => if d = 0 then 0x24 else 0) ∧
      timerRunning (c.run cfg st) := by
    intro st
    have hrun := command_running cfg c st
    have hR : (c.run cfg st).stepsToTake = c.steps := by
      rw [(command_fields cfg c st).2.1]
      exact Nat.mod_eq_of_lt hs
    refine ⟨(command_fields cfg c st).1, hR, ?_, ?_, hrun⟩
    · cases c with
      | straight n d => exact (straight_fields cfg n d st).2.2.1
      | center n d => exact (center_fields n d st).2.2.1
      | wheel n w d => exact (wheel_fields cfg n w d st).2.2.1
    · cases c with
      | straight n d => exact straight_dir cfg n d st
      | center n d => exact center_dir n d st
      | wheel n w d => exact wheel_dir cfg n w d st
  obtain ⟨a1, a2, a3, a4, a5⟩ := one st1
  obtain ⟨b1, b2, b3, b4, b5⟩ := one st2
  exact ⟨⟨a1, a2, a3, a4, a5⟩, a1.trans b1.symm, a2.trans b2.symm, a3.trans b3.symm,
    a4.trans b4.symm, ⟨fun _ => b5, fun _ => a5⟩⟩

/-- C7 at a straight move of five steps that preempts a rotation about a wheel,
compared with the same command from the all-zero state. -/
theorem preemption_no_residue_witness :
    (Command.straight 5 1).steps < 65536 ∧
    ((((Command.straight 5 1).run sampleConfig midMoveState).stepsTaken = 0 ∧
      ((Command.straight 5 1).run sampleConfig midMoveState).stepsToTake =
        (Command.straight 5 1).steps ∧
      ((Command.straight 5 1).run sampleConfig midMoveState).stepperFilter =
        (match Command.straight 5 1 with
          | .straight _ _ => 0xFF
          | .center _ _ => 0xFF
          | .wheel _ w _ => if w = sampleConfig.LEFT then 0x40 else 0x08) ∧
      ((Command.straight 5 1).run sampleConfig midMoveState).PORTA &&& 0x24 =
        (match Command.straight 5 1 with
          | .straight _ d => if d = sampleConfig.FORWARD then 0x20 else 0x04
          | .center _ d => if d = 0 then 0x24 else 0
          | .wheel _ _ d => if d = 0 then 0x24 else 0) ∧
      timerRunning ((Command.straight 5 1).run sampleConfig midMoveState)) ∧
    (((Command.straight 5 1).run sampleConfig midMoveState).stepsTaken =
        ((Command.straight 5 1).run sampleConfig zeroState).stepsTaken ∧
      ((Command.straight 5 1).run sampleConfig midMoveState).stepsToTake =
        ((Command.straight 5 1).run sampleConfig zeroState).stepsToTake ∧
      ((Command.straight 5 1).run sampleConfig midMoveState).stepperFilter =
        ((Command.straight 5 1).run sampleConfig zeroState).stepperFilter ∧
      ((Command.straight 5 1).run sampleConfig midMoveState).PORTA &&& 0x24 =
        ((Command.straight 5 1).run sampleConfig zeroState).PORTA &&& 0x24 ∧
      (timerRunning ((Command.straight 5 1).run sampleConfig midMoveState) ↔
        timerRunning ((Command.straight 5 1).run sampleConfig zeroState)))) :=
  ⟨by decide,
    preemption_no_residue sampleConfig (Command.straight 5 1) midMoveState zeroState
      (by decide)⟩

/-! ## Rotation about one wheel -/

theorem and_sub_mask (p k j v : Nat) (hk : k &&& j = j) (h : p &&& k = v) :
    p &&& j = v &&& j := by
  rw [← h, Nat.and_assoc, hk]

/-- C8 (single-wheel isolation).  After `Stepper_RotateAboutWheel(s, wheel, dir)`
with `1 ≤ s ≤ 65535`, issued while both pulse bits are clear, after `n ≤ 2 * s`
ticks: when `wheel = LEFT`, bit 3 of `PORTA` is clear and bit 6 is set
after an odd tick and clear after an even one; when `wheel ≠ LEFT`, bit 6 is clear
and bit 3 is set after an odd tick and clear after an even one. -/
theorem single_wheel_isolation (cfg : Config) (s wheel dir : Nat) (st : State)
    (h1 : 1 ≤ s) (hs : s ≤ 65535) (hp : pulseClear st) (n : Nat) (hn : n ≤ 2 * s) :
    (wheel = cfg.LEFT →
      (ticks cfg n (Stepper_RotateAboutWheel cfg s wheel dir st)).PORTA &&& 0x08 = 0 ∧
      (ticks cfg n (Stepper_RotateAboutWheel cfg s wheel dir st)).PORTA &&& 0x40 =
        if n % 2 = 1 then 0x40 else 0) ∧
    (wheel ≠ cfg.LEFT →
      (ticks cfg n (Stepper_RotateAboutWheel cfg s wheel dir st)).PORTA &&& 0x40 = 0 ∧
      (ticks cfg n (Stepper_RotateAboutWheel cfg s wheel dir st)).PORTA &&& 0x08 =
        if n % 2 = 1 then 0x08 else 0) := by
  have inv := move_after_ticks cfg (.wheel s wheel dir) st h1 hs hp n hn
  have hP := inv.pulse
  have hF : (Command.run cfg (.wheel s wheel dir) st).stepperFilter =
      if wheel = cfg.LEFT then 0x40 else 0x08 := (wheel_fields cfg s wheel dir st).2.2.1
  rw [hF] at hP
  have hP' : (ticks cfg n (Stepper_RotateAboutWheel cfg s wheel dir st)).PORTA &&& 0x48 =
      if n % 2 = 1 then 0x48 &&& (if wheel = cfg.LEFT then 0x40 else 0x08) else 0 := hP
  constructor
  · intro hw
    rw [if_pos hw] at hP'
    have h3 := and_sub_mask _ 0x48 0x08 _ (by decide) hP'
    have h6 := and_sub_mask _ 0x48 0x40 _ (by decide) hP'
    rw [h3, h6]
    by_cases ho : n % 2 = 1
    · simp only [ho, if_true]
      exact ⟨by decide, by decide⟩
    · simp only [ho, if_false]
      exact ⟨by decide, by decide⟩
  · intro hw
    rw [if_neg hw] at hP'
    have h3 := and_sub_mask _ 0x48 0x08 _ (by decide) hP'
    have h6 := and_sub_mask _ 0x48 0x40 _ (by decide) hP'
    rw [h3, h6]
    by_cases ho : n % 2 = 1
    · simp only [ho, if_true]
      exact ⟨by decide, by decide⟩
    · simp only [ho, if_false]
      exact ⟨by decide, by decide⟩

/-- C8 at the third tick of a two-step rotation about the left wheel. -/
theorem single_wheel_isolation_witness :
    (1 ≤ 2 ∧ 2 ≤ 65535 ∧ pulseClear zeroState ∧ 3 ≤ 2 * 2) ∧
    ((1 = sampleConfig.LEFT →
      (ticks sampleConfig 3 (Stepper_RotateAboutWheel sampleConfig 2 1 0 zeroState)).PORTA
        &&& 0x08 = 0 ∧
      (ticks sampleConfig 3 (Stepper_RotateAboutWheel sampleConfig 2 1 0 zeroState)).PORTA
        &&& 0x40 = if 3 % 2 = 1 then 0x40 else 0) ∧
    (1 ≠ sampleConfig.LEFT →
      (ticks sampleConfig 3 (Stepper_RotateAboutWheel sampleConfig 2 1 0 zeroState)).PORTA
        &&& 0x40 = 0 ∧
      (ticks sampleConfig 3 (Stepper_RotateAboutWheel sampleConfig 2 1 0 zeroState)).PORTA
        &&& 0x08 = if 3 % 2 = 1 then 0x08 else 0)) :=
  ⟨⟨by decide, by decide, by decide, by decide⟩,
    single_wheel_isolation sampleConfig 2 1 0 zeroState (by decide) (by decide) (by decide)
      3 (by decide)⟩

/-! ## Moves of zero steps -/

theorem pulsePhase_stops (st : State) (h0 : st.stepsToTake = 0) :
    (pulsePhase st).TCCR1B = st.TCCR1B &&& 0xFC := by
  unfold pulsePhase StopSteppers
  dsimp only
  rw [if_pos h0]
  split_ifs <;> rfl

/-- C9 (a zero-step move does not spin).  After any move command with
`steps = 0`, from any state, the first following handler invocation leaves the
timer stopped. -/
theorem zero_step_move_stops (cfg : Config) (c : Command) (st : State)
    (h0 : c.steps = 0) :
    ¬ timerRunning (SIG_OUTPUT_COMPARE1A cfg (c.run cfg st)) := by
  have hR : (c.run cfg st).stepsToTake = 0 := by
    rw [(command_fields cfg c st).2.1, h0]
  rw [timerRunning_iff]
  simp only [SIG_OUTPUT_COMPARE1A, rampUpdate_TCCR1B, pulsePhase_stops _ hR]
  rw [stopped_not_running]
  simp

/-- C9 at a zero-step rotation about the centre that preempts a move in progress. -/
theorem zero_step_move_stops_witness :
    (Command.center 0 1).steps = 0 ∧
    ¬ timerRunning (SIG_OUTPUT_COMPARE1A sampleConfig
        ((Command.center 0 1).run sampleConfig midMoveState)) :=
  ⟨by decide, zero_step_move_stops sampleConfig (Command.center 0 1) midMoveState (by decide)⟩

/-- C10, what the code does: after `Stepper_Init` (either stepping mode) and
`Stepper_MoveStraight(0, dir)` the timer is running, and the one handler invocation
that follows asserts both pulse bits, counts a step (`stepsTaken = 1`) and wraps
`stepsToTake` round to 65535, since the stop test at the head of the handler does
not return. -/
theorem zero_step_move_emits_pulse (cfg : Config) (mode dir : Nat) (prior : State) :
    timerRunning (Stepper_MoveStraight cfg 0 dir (Stepper_Init cfg mode prior)) ∧
    (SIG_OUTPUT_COMPARE1A cfg
      (Stepper_MoveStraight cfg 0 dir (Stepper_Init cfg mode prior))).PORTA &&& 0x48 = 0x48 ∧
    (SIG_OUTPUT_COMPARE1A cfg
      (Stepper_MoveStraight cfg 0 dir (Stepper_Init cfg mode prior))).stepsTaken = 1 ∧
    (SIG_OUTPUT_COMPARE1A cfg
      (Stepper_MoveStraight cfg 0 dir (Stepper_Init cfg mode prior))).stepsToTake = 65535 := by
  have hf := straight_fields cfg 0 dir (Stepper_Init cfg mode prior)
  have hp : (Stepper_MoveStraight cfg 0 dir (Stepper_Init cfg mode prior)).PORTA &&& 0x48 = 0 := by
    rw [straight_pulse]
    exact init_pulseClear cfg mode prior
  have hph : pulsePhase (Stepper_MoveStraight cfg 0 dir (Stepper_Init cfg mode prior)) =
      { StopSteppers (Stepper_MoveStraight cfg 0 dir (Stepper_Init cfg mode prior)) with
        PORTA := (Stepper_MoveStraight cfg 0 dir (Stepper_Init cfg mode prior)).PORTA |||
          (0x48 &&& (Stepper_MoveStraight cfg 0 dir (Stepper_Init cfg mode prior)).stepperFilter)
        stepsToTake :=
          ((Stepper_MoveStraight cfg 0 dir (Stepper_Init cfg mode prior)).stepsToTake + 65535)
            % 65536
        stepsTaken :=
          ((Stepper_MoveStraight cfg 0 dir (Stepper_Init cfg mode prior)).stepsTaken + 1)
            % 65536 } := by
    unfold pulsePhase StopSteppers
    dsimp only
    rw [if_pos hf.2.1]
    dsimp only
    rw [if_neg (by rw [hp]; simp)]
  refine ⟨command_running cfg (.straight 0 dir) _, ?_, ?_, ?_⟩
  · simp only [SIG_OUTPUT_COMPARE1A, rampUpdate_PORTA, hph]
    rw [pulse_asserted _ _ hp, hf.2.2.1]
    decide
  · simp only [SIG_OUTPUT_COMPARE1A, rampUpdate_stepsTaken, hph]
    rw [hf.1]
  · simp only [SIG_OUTPUT_COMPARE1A, rampUpdate_stepsToTake, hph]
    rw [hf.2.1]

/-! ## One handler invocation, by the state of the pulse bits -/

theorem pulsePhase_TCCR1B (st : State) :
    (pulsePhase st).TCCR1B = if st.stepsToTake = 0 then st.TCCR1B &&& 0xFC else st.TCCR1B := by
  unfold pulsePhase StopSteppers
  dsimp only
  split_ifs <;> rfl

theorem pulsePhase_of_asserted (st : State) (hp : st.PORTA &&& 0x48 ≠ 0) :
    (pulsePhase st).PORTA = st.PORTA &&& 0xB7 ∧
    (pulsePhase st).stepsToTake = st.stepsToTake ∧
    (pulsePhase st).stepsTaken = st.stepsTaken := by
  unfold pulsePhase StopSteppers
  dsimp only
  split_ifs <;> simp_all

theorem pulsePhase_of_clear (st : State) (hp : st.PORTA &&& 0x48 = 0) :
    (pulsePhase st).PORTA = st.PORTA ||| (0x48 &&& st.stepperFilter) ∧
    (pulsePhase st).stepsToTake = (st.stepsToTake + 65535) % 65536 ∧
    (pulsePhase st).stepsTaken = (st.stepsTaken + 1) % 65536 := by
  unfold pulsePhase StopSteppers
  dsimp only
  split_ifs <;> simp_all

/-- A handler invocation entered with a pulse bit asserted: the trailing edge. -/
theorem tick_of_asserted (cfg : Config) (st : State) (hp : st.PORTA &&& 0x48 ≠ 0) :
    (SIG_OUTPUT_COMPARE1A cfg st).PORTA = st.PORTA &&& 0xB7 ∧
    (SIG_OUTPUT_COMPARE1A cfg st).stepsToTake = st.stepsToTake ∧
    (SIG_OUTPUT_COMPARE1A cfg st).stepsTaken = st.stepsTaken ∧
    (SIG_OUTPUT_COMPARE1A cfg st).TCCR1B =
      (if st.stepsToTake = 0 then st.TCCR1B &&& 0xFC else st.TCCR1B) ∧
    (SIG_OUTPUT_COMPARE1A cfg st).stepperFilter = st.stepperFilter := by
  obtain ⟨h1, h2, h3⟩ := pulsePhase_of_asserted st hp
  simp only [SIG_OUTPUT_COMPARE1A, rampUpdate_PORTA, rampUpdate_stepsToTake,
    rampUpdate_stepsTaken, rampUpdate_TCCR1B, rampUpdate_stepperFilter,
    pulsePhase_stepperFilter, pulsePhase_TCCR1B, h1, h2, h3]
  exact ⟨trivial, trivial, trivial, trivial, trivial⟩

/-- A handler invocation entered with both pulse bits clear: the leading edge. -/
theorem tick_of_clear (cfg : Config) (st : State) (hp : st.PORTA &&& 0x48 = 0) :
    (SIG_OUTPUT_COMPARE1A cfg st).PORTA = st.PORTA ||| (0x48 &&& st.stepperFilter) ∧
    (SIG_OUTPUT_COMPARE1A cfg st).stepsToTake = (st.stepsToTake + 65535) % 65536 ∧
    (SIG_OUTPUT_COMPARE1A cfg st).stepsTaken = (st.stepsTaken + 1) % 65536 ∧
    (SIG_OUTPUT_COMPARE1A cfg st).TCCR1B =
      (if st.stepsToTake = 0 then st.TCCR1B &&& 0xFC else st.TCCR1B) ∧
    (SIG_OUTPUT_COMPARE1A cfg st).stepperFilter = st.stepperFilter := by
  obtain ⟨h1, h2, h3⟩ := pulsePhase_of_clear st hp
  simp only [SIG_OUTPUT_COMPARE1A, rampUpdate_PORTA, rampUpdate_stepsToTake,
    rampUpdate_stepsTaken, rampUpdate_TCCR1B, rampUpdate_stepperFilter,
    pulsePhase_stepperFilter, pulsePhase_TCCR1B, h1, h2, h3]
  exact ⟨trivial, trivial, trivial, trivial, trivial⟩

theorem init_fields (cfg : Config) (mode : Nat) (prior : State) :
    (Stepper_Init cfg mode prior).stepsToTake = 0 ∧
    (Stepper_Init cfg mode prior).stepsTaken = 0 ∧
    (Stepper_Init cfg mode prior).rampStage = 0 ∧
    (Stepper_Init cfg mode prior).stepperFilter = 0xFF ∧
    (Stepper_Init cfg mode prior).ICR1 = toU16 (rampArray cfg 0) ∧
    (Stepper_Init cfg mode prior).OCR1A = toU16 (rampArray cfg 0) / 2 ∧
    (Stepper_Init cfg mode prior).PORTA = (if mode = cfg._HALFSTEPPINGMODE_ then 0 else 0x90) ∧
    (Stepper_Init cfg mode prior).TCCR1B = 0x18 := by
  unfold Stepper_Init
  refine ⟨rfl, rfl, rfl, rfl, rfl, rfl, rfl, ?_⟩
  show _BV WGM13 ||| _BV WGM12 = 0x18
  decide

theorem init_not_running (cfg : Config) (mode : Nat) (prior : State) :
    ¬ timerRunning (Stepper_Init cfg mode prior) := by
  rw [timerRunning_iff, (init_fields cfg mode prior).2.2.2.2.2.2.2]
  decide

/-! ## A tick on a finished move -/

/-- C11, the claim on the last trailing edge: one tick into a one-step move the
step is counted (`stepsToTake = 0`) and both pulse bits are asserted; the handler
invocation that follows clears them, so the pulse bits do change. -/
theorem finished_move_tick_counterexample :
    lastPulseState.stepsToTake = 0 ∧
    lastPulseState.PORTA &&& 0x48 = 0x48 ∧
    (SIG_OUTPUT_COMPARE1A sampleConfig lastPulseState).PORTA &&& 0x48 = 0 ∧
    (SIG_OUTPUT_COMPARE1A sampleConfig lastPulseState).PORTA &&& 0x48 ≠
      lastPulseState.PORTA &&& 0x48 := by
  decide

/-- C11 as amended (the last trailing edge).  In every state with
`stepsToTake = 0` in which a pulse bit is asserted, one handler invocation stops the
timer, clears both pulse bits and nothing else of `PORTA`, leaves `stepsToTake` at
`0` and leaves `stepsTaken` unchanged. -/
theorem finished_move_tick (cfg : Config) (st : State) (h0 : st.stepsToTake = 0)
    (hp : st.PORTA &&& 0x48 ≠ 0) :
    ¬ timerRunning (SIG_OUTPUT_COMPARE1A cfg st) ∧
    (SIG_OUTPUT_COMPARE1A cfg st).stepsToTake = 0 ∧
    (SIG_OUTPUT_COMPARE1A cfg st).stepsTaken = st.stepsTaken ∧
    (SIG_OUTPUT_COMPARE1A cfg st).PORTA = st.PORTA &&& 0xB7 ∧
    pulseClear (SIG_OUTPUT_COMPARE1A cfg st) := by
  obtain ⟨hP, hR, hT, hB, _⟩ := tick_of_asserted cfg st hp
  refine ⟨?_, hR.trans h0, hT, hP, ?_⟩
  · rw [timerRunning_iff, hB, if_pos h0, stopped_not_running]
    simp
  · unfold pulseClear
    rw [hP]
    exact pulse_cleared st.PORTA

/-- C11 as amended, at the last trailing edge of a one-step move. -/
theorem finished_move_tick_witness :
    (lastPulseState.stepsToTake = 0 ∧ lastPulseState.PORTA &&& 0x48 ≠ 0) ∧
    (¬ timerRunning (SIG_OUTPUT_COMPARE1A sampleConfig lastPulseState) ∧
      (SIG_OUTPUT_COMPARE1A sampleConfig lastPulseState).stepsToTake = 0 ∧
      (SIG_OUTPUT_COMPARE1A sampleConfig lastPulseState).stepsTaken =
        lastPulseState.stepsTaken ∧
      (SIG_OUTPUT_COMPARE1A sampleConfig lastPulseState).PORTA =
        lastPulseState.PORTA &&& 0xB7 ∧
      pulseClear (SIG_OUTPUT_COMPARE1A sampleConfig lastPulseState)) :=
  ⟨⟨by decide, by decide⟩,
    finished_move_tick sampleConfig lastPulseState (by decide) (by decide)⟩

/-! ## Waiting for the stop -/

theorem reachable_filter (cfg : Config) (st : State) (hr : Reachable cfg st) :
    st.stepperFilter = 0xFF ∨ st.stepperFilter = 0x40 ∨ st.stepperFilter = 0x08 := by
  induction hr with
  | init mode prior => exact Or.inl rfl
  | command c st0 _ _ _ => exact (command_fields cfg c st0).2.2.1
  | tick st0 _ _ ih =>
    simp only [SIG_OUTPUT_COMPARE1A, rampUpdate_stepperFilter, pulsePhase_stepperFilter]
    exact ih

theorem waitForStop_zero (cfg : Config) (st : State) :
    Stepper_WaitForStop cfg 0 st = if timerRunning st then none else some st := rfl

theorem lastPulseState_reachable : Reachable sampleConfig lastPulseState :=
  Reachable.tick _ (by decide)
    (Reachable.command (.straight 1 1) _ (by decide) (Reachable.init 1 zeroState))

theorem zeroMoveState_reachable : Reachable sampleConfig zeroMoveState :=
  Reachable.command (.straight 0 1) _ (by decide) (Reachable.init 1 zeroState)

/-- C12, two reachable states with `stepsToTake = 0` in which the wait does not
return at once: right after `Stepper_Init` and a move command of zero steps (the
command has started the timer and no tick has stopped it yet), and one tick into a
one-step move (the last pulse is still asserted and its trailing edge pending). -/
theorem waitForStop_idle_counterexample :
    (Reachable sampleConfig zeroMoveState ∧ zeroMoveState.stepsToTake = 0 ∧
      timerRunning zeroMoveState ∧
      Stepper_WaitForStop sampleConfig 0 zeroMoveState = none) ∧
    (Reachable sampleConfig lastPulseState ∧ lastPulseState.stepsToTake = 0 ∧
      timerRunning lastPulseState ∧
      Stepper_WaitForStop sampleConfig 0 lastPulseState = none) :=
  ⟨⟨zeroMoveState_reachable, by decide, by decide, by decide⟩,
    ⟨lastPulseState_reachable, by decide, by decide, by decide⟩⟩

/-- C12 as amended (idle safety).  `Stepper_WaitForStop` returns at once, without
any tick, in the state left by `Stepper_Init` and in every state reachable from
`Stepper_Init` through move commands and ticks in which `stepsToTake = 0`, both
pulse bits are clear and `stepsTaken ≠ 0` (a move has been carried out to its last
trailing edge). -/
theorem waitForStop_idle (cfg : Config) (mode : Nat) (prior st : State)
    (h : st = Stepper_Init cfg mode prior ∨
      (Reachable cfg st ∧ st.stepsToTake = 0 ∧ pulseClear st ∧ st.stepsTaken ≠ 0)) :
    ¬ timerRunning st ∧ Stepper_WaitForStop cfg 0 st = some st := by
  have stopped : ¬ timerRunning st := by
    rcases h with h | ⟨hr, h0, hp, hT⟩
    · rw [h]
      exact init_not_running cfg mode prior
    · cases hr with
      | init mode' prior' => exact init_not_running cfg mode' prior'
      | command c st0 _ _ => exact absurd (command_fields cfg c st0).1 hT
      | tick st0 _ hr0 =>
        by_cases hp0 : st0.PORTA &&& 0x48 = 0
        · exfalso
          obtain ⟨hP, _⟩ := tick_of_clear cfg st0 hp0
          have hflt := filter_selects_pulse (reachable_filter cfg st0 hr0)
          unfold pulseClear at hp
          rw [hP, pulse_asserted _ _ hp0] at hp
          exact hflt hp
        · obtain ⟨_, hR, _, hB, _⟩ := tick_of_asserted cfg st0 hp0
          rw [hR] at h0
          rw [timerRunning_iff, hB, if_pos h0, stopped_not_running]
          simp
  exact ⟨stopped, by rw [waitForStop_zero, if_neg stopped]⟩

/-- C12 as amended, after a one-step move has been carried out (two ticks). -/
theorem waitForStop_idle_witness :
    (SIG_OUTPUT_COMPARE1A sampleConfig lastPulseState = Stepper_Init sampleConfig 1 zeroState ∨
      (Reachable sampleConfig (SIG_OUTPUT_COMPARE1A sampleConfig lastPulseState) ∧
        (SIG_OUTPUT_COMPARE1A sampleConfig lastPulseState).stepsToTake = 0 ∧
        pulseClear (SIG_OUTPUT_COMPARE1A sampleConfig lastPulseState) ∧
        (SIG_OUTPUT_COMPARE1A sampleConfig lastPulseState).stepsTaken ≠ 0)) ∧
    (¬ timerRunning (SIG_OUTPUT_COMPARE1A sampleConfig lastPulseState) ∧
      Stepper_WaitForStop sampleConfig 0 (SIG_OUTPUT_COMPARE1A sampleConfig lastPulseState) =
        some (SIG_OUTPUT_COMPARE1A sampleConfig lastPulseState)) :=
  ⟨Or.inr ⟨Reachable.tick _ (by decide) lastPulseState_reachable, by decide, by decide,
      by decide⟩,
    waitForStop_idle sampleConfig 1 zeroState _
      (Or.inr ⟨Reachable.tick _ (by decide) lastPulseState_reachable, by decide, by decide,
        by decide⟩)⟩

/-! ## Initialisation -/

/-- C13 (`Stepper_Init` resets the controller and is idempotent).  From every prior
state and for every stepping mode, `Stepper_Init` leaves `stepsToTake = 0`,
`stepsTaken = 0`, `rampStage = 0`, `stepperFilter = 0xFF`, `ICR1 = rampArray[0]`,
`OCR1A = ICR1 / 2`, `PORTA = 0` in half-stepping mode and `0x90` otherwise, both
pulse bits clear, `TCCR1B = WGM13|WGM12` and the timer not running; and running it
a second time with the same mode changes nothing. -/
theorem init_resets_and_idempotent (cfg : Config) (mode : Nat) (prior : State) :
    (Stepper_Init cfg mode prior).stepsToTake = 0 ∧
    (Stepper_Init cfg mode prior).stepsTaken = 0 ∧
    (Stepper_Init cfg mode prior).rampStage = 0 ∧
    (Stepper_Init cfg mode prior).stepperFilter = 0xFF ∧
    (Stepper_Init cfg mode prior).ICR1 = toU16 (rampArray cfg 0) ∧
    (Stepper_Init cfg mode prior).OCR1A = (Stepper_Init cfg mode prior).ICR1 / 2 ∧
    (Stepper_Init cfg mode prior).PORTA =
      (if mode = cfg._HALFSTEPPINGMODE_ then 0 else 0x90) ∧
    pulseClear (Stepper_Init cfg mode prior) ∧
    (Stepper_Init cfg mode prior).TCCR1B = _BV WGM13 ||| _BV WGM12 ∧
    ¬ timerRunning (Stepper_Init cfg mode prior) ∧
    Stepper_Init cfg mode (Stepper_Init cfg mode prior) = Stepper_Init cfg mode prior := by
  refine ⟨rfl, rfl, rfl, rfl, rfl, rfl, rfl, init_pulseClear cfg mode prior, rfl,
    init_not_running cfg mode prior, ?_⟩
  unfold Stepper_Init
  simp only [Nat.or_assoc, Nat.or_self]

/-! ## When the timer runs -/

/-- C14, the claim right after a move command of zero steps: the state is
reachable and the timer runs, yet `stepsToTake = 0` and no pulse bit is asserted. -/
theorem timer_running_counterexample :
    Reachable sampleConfig zeroMoveState ∧
    timerRunning zeroMoveState ∧
    ¬ (0 < zeroMoveState.stepsToTake ∨ zeroMoveState.PORTA &&& 0x48 ≠ 0) :=
  ⟨zeroMoveState_reachable, by decide, by decide⟩

theorem moving_invariant (cfg : Config) (st : State) (hr : ReachableMoving cfg st) :
    (st.stepperFilter = 0xFF ∨ st.stepperFilter = 0x40 ∨ st.stepperFilter = 0x08) ∧
    (timerRunning st ↔ (0 < st.stepsToTake ∨ st.PORTA &&& 0x48 ≠ 0)) := by
  induction hr with
  | init mode prior =>
    refine ⟨Or.inl rfl, ?_⟩
    have hp : (Stepper_Init cfg mode prior).PORTA &&& 0x48 = 0 := init_pulseClear cfg mode prior
    have hR : (Stepper_Init cfg mode prior).stepsToTake = 0 := rfl
    constructor
    · intro h
      exact absurd h (init_not_running cfg mode prior)
    · intro h
      rcases h with h | h
      · omega
      · exact absurd hp h
  | command c st0 h1 hs _ _ =>
    refine ⟨(command_fields cfg c st0).2.2.1, ?_⟩
    constructor
    · intro _
      left
      rw [(command_fields cfg c st0).2.1, Nat.mod_eq_of_lt hs]
      exact h1
    · intro _
      exact command_running cfg c st0
  | tick st0 hrun _ ih =>
    obtain ⟨hflt, hiff⟩ := ih
    by_cases hp0 : st0.PORTA &&& 0x48 = 0
    · obtain ⟨hP, hR, _, hB, hF⟩ := tick_of_clear cfg st0 hp0
      have hR0 : 0 < st0.stepsToTake := by
        rcases hiff.1 hrun with h | h
        · exact h
        · exact absurd hp0 h
      refine ⟨by rw [hF]; exact hflt, ?_⟩
      have hrun' : timerRunning (SIG_OUTPUT_COMPARE1A cfg st0) := by
        rw [timerRunning_iff, hB, if_neg (by omega)]
        exact (timerRunning_iff st0).1 hrun
      have hpulse : (SIG_OUTPUT_COMPARE1A cfg st0).PORTA &&& 0x48 ≠ 0 := by
        rw [hP, pulse_asserted _ _ hp0]
        exact filter_selects_pulse hflt
      exact ⟨fun _ => Or.inr hpulse, fun _ => hrun'⟩
    · obtain ⟨hP, hR, _, hB, hF⟩ := tick_of_asserted cfg st0 hp0
      refine ⟨by rw [hF]; exact hflt, ?_⟩
      have hpulse : (SIG_OUTPUT_COMPARE1A cfg st0).PORTA &&& 0x48 = 0 := by
        rw [hP]
        exact pulse_cleared st0.PORTA
      by_cases hR0 : st0.stepsToTake = 0
      · have hstop : ¬ timerRunning (SIG_OUTPUT_COMPARE1A cfg st0) := by
          rw [timerRunning_iff, hB, if_pos hR0, stopped_not_running]
          simp
        constructor
        · intro h
          exact absurd h hstop
        · intro h
          rcases h with h | h
          · rw [hR, hR0] at h
            omega
          · exact absurd hpulse h
      · have hrun' : timerRunning (SIG_OUTPUT_COMPARE1A cfg st0) := by
          rw [timerRunning_iff, hB, if_neg hR0]
          exact (timerRunning_iff st0).1 hrun
        refine ⟨fun _ => Or.inl ?_, fun _ => hrun'⟩
        rw [hR]
        omega

/-- C14 as amended (timer-running invariant).  In every state reachable from
`Stepper_Init` through any interleaving of move commands with `1 ≤ steps ≤ 65535`
and of handler invocations (which occur only while the timer runs), the timer is
running if and only if `stepsToTake > 0` or a pulse bit of `PORTA` is asserted. -/
theorem timer_running_invariant (cfg : Config) (st : State)
    (hr : ReachableMoving cfg st) :
    timerRunning st ↔ (0 < st.stepsToTake ∨ st.PORTA &&& 0x48 ≠ 0) :=
  (moving_invariant cfg st hr).2

/-- C14 as amended, one tick into a one-step move: the last pulse is pending and
the timer runs. -/
theorem timer_running_invariant_witness :
    ReachableMoving sampleConfig lastPulseState ∧
    (timerRunning lastPulseState ↔
      (0 < lastPulseState.stepsToTake ∨ lastPulseState.PORTA &&& 0x48 ≠ 0)) :=
  ⟨ReachableMoving.tick _ (by decide)
      (ReachableMoving.command (.straight 1 1) _ (by decide) (by decide)
        (ReachableMoving.init 1 zeroState)),
    timer_running_invariant sampleConfig lastPulseState
      (ReachableMoving.tick _ (by decide)
        (ReachableMoving.command (.straight 1 1) _ (by decide) (by decide)
          (ReachableMoving.init 1 zeroState)))⟩

/-! ## The pulse bit of the stationary wheel -/

/-- C15, a preempting rotation about a wheel: a straight move has asserted both
pulse bits when `Stepper_RotateAboutWheel` (left wheel, filter `0x40`) preempts it;
the state is reachable, bit 3 of `PORTA` is set, and the next handler invocation
clears it although the filter excludes it. -/
theorem stationary_pin_counterexample :
    Reachable sampleConfig preemptedState ∧
    preemptedState.stepperFilter = 0x40 ∧
    preemptedState.PORTA &&& 0x08 = 0x08 ∧
    (SIG_OUTPUT_COMPARE1A sampleConfig preemptedState).PORTA &&& 0x08 = 0 :=
  ⟨Reachable.command (.wheel 5 1 0) _ (by decide)
      (Reachable.tick _ (by decide)
        (Reachable.command (.straight 5 1) _ (by decide) (Reachable.init 1 zeroState))),
    by decide, by decide, by decide⟩

theorem tick_excluded_bit (cfg : Config) (st : State) (f k : Nat)
    (hf : st.stepperFilter = f) (hk : 0x48 &&& k = k) (hfk : (0x48 &&& f) &&& k = 0)
    (hb : 0xB7 &&& k = 0) :
    (SIG_OUTPUT_COMPARE1A cfg st).PORTA &&& k = 0 := by
  by_cases hp0 : st.PORTA &&& 0x48 = 0
  · obtain ⟨hP, _⟩ := tick_of_clear cfg st hp0
    have hk0 : st.PORTA &&& k = 0 := by
      rw [and_sub_mask st.PORTA 0x48 k 0 hk hp0, Nat.zero_and]
    rw [hP, hf, or_and_mask _ _ _ hk0, hfk]
  · obtain ⟨hP, _⟩ := tick_of_asserted cfg st hp0
    rw [hP, and_and_mask _ _ _ _ hb, Nat.and_zero]

/-- C15 as amended (the stationary wheel's pulse bit is never set).  After every
handler invocation entered with `stepperFilter = 0x40` bit 3 of `PORTA` is clear,
and after every one entered with `stepperFilter = 0x08` bit 6 is clear, whatever
the ramp stage and the rest of the state; so a clear excluded bit is left as it
is, and the handler changes an excluded bit only by clearing one that a preempted
move had left asserted. -/
theorem stationary_pin_never_set (cfg : Config) (st : State) :
    (st.stepperFilter = 0x40 →
      (SIG_OUTPUT_COMPARE1A cfg st).PORTA &&& 0x08 = 0 ∧
      (st.PORTA &&& 0x08 = 0 →
        (SIG_OUTPUT_COMPARE1A cfg st).PORTA &&& 0x08 = st.PORTA &&& 0x08)) ∧
    (st.stepperFilter = 0x08 →
      (SIG_OUTPUT_COMPARE1A cfg st).PORTA &&& 0x40 = 0 ∧
      (st.PORTA &&& 0x40 = 0 →
        (SIG_OUTPUT_COMPARE1A cfg st).PORTA &&& 0x40 = st.PORTA &&& 0x40)) := by
  constructor
  · intro hf
    have h := tick_excluded_bit cfg st 0x40 0x08 hf (by decide) (by decide) (by decide)
    exact ⟨h, fun h0 => h.trans h0.symm⟩
  · intro hf
    have h := tick_excluded_bit cfg st 0x08 0x40 hf (by decide) (by decide) (by decide)
    exact ⟨h, fun h0 => h.trans h0.symm⟩

/-- C15 as amended, three ticks into a rotation about the left wheel. -/
theorem stationary_pin_never_set_witness :
    (midMoveState.stepperFilter = 0x40 ∧ midMoveState.PORTA &&& 0x08 = 0) ∧
    ((SIG_OUTPUT_COMPARE1A sampleConfig midMoveState).PORTA &&& 0x08 = 0 ∧
      (SIG_OUTPUT_COMPARE1A sampleConfig midMoveState).PORTA &&& 0x08 =
        midMoveState.PORTA &&& 0x08) :=
  ⟨⟨by decide, by decide⟩,
    ((stationary_pin_never_set sampleConfig midMoveState).1 (by decide)).1,
    ((stationary_pin_never_set sampleConfig midMoveState).1 (by decide)).2 (by decide)⟩

/-! ## Rotation about a wheel and about the centre -/

/-- C16 (rotate-about-wheel is rotate-about-center plus a mask).  From every prior
state and for all `steps`, `wheel` and `dir`, the state after
`Stepper_RotateAboutWheel(steps, wheel, dir)` is the state after
`Stepper_RotateAboutCenter(steps, dir)` with `stepperFilter` replaced by `0x40`
when `wheel = LEFT` and by `0x08` otherwise; after rotate-about-center the filter
is `0xFF`. -/
theorem wheel_is_center_with_mask (cfg : Config) (steps wheel dir : Nat) (st : State) :
    Stepper_RotateAboutWheel cfg steps wheel dir st =
      { Stepper_RotateAboutCenter steps dir st with
        stepperFilter := if wheel = cfg.LEFT then 0x40 else 0x08 } ∧
    (Stepper_RotateAboutCenter steps dir st).stepperFilter = 0xFF := by
  refine ⟨?_, (center_fields steps dir st).2.2.1⟩
  unfold Stepper_RotateAboutWheel Stepper_RotateAboutCenter StartSteppers
  by_cases hd : dir = 0 <;> by_cases hw : wheel = cfg.LEFT <;> simp [hd, hw]

/-! ## Two ticks per step -/

theorem pulse_bits_outside (p f : Nat) : (p ||| (0x48 &&& f)) &&& 0xB7 = p &&& 0xB7 := by
  apply or_and_mask_keep
  rw [Nat.and_comm 0x48 f, Nat.and_assoc, show (0x48 &&& 0xB7 : Nat) = 0 by decide,
    Nat.and_zero]

/-- C25 (two ticks per step).  In every state with `0 < stepsToTake` (a 16-bit
value): (a) when a pulse bit is asserted, one handler invocation clears both pulse
bits and leaves `stepsToTake` and `stepsTaken` as they are; (b) when both pulse bits
are clear, it sets exactly the pulse bits of `0x48 & stepperFilter`, takes one from
`stepsToTake` and adds one to `stepsTaken` (a 16-bit increment, which is `+ 1`
below 65535); in both cases the bits of `PORTA` outside the pulse mask (mask `0xB7`,
direction bits 5 and 2 included) and `TCCR1B` are unchanged, so a running timer
keeps running. -/
theorem two_ticks_per_step (cfg : Config) (st : State) (h0 : 0 < st.stepsToTake)
    (h16 : st.stepsToTake < 65536) :
    (st.PORTA &&& 0x48 ≠ 0 →
      (SIG_OUTPUT_COMPARE1A cfg st).PORTA &&& 0x48 = 0 ∧
      (SIG_OUTPUT_COMPARE1A cfg st).stepsToTake = st.stepsToTake ∧
      (SIG_OUTPUT_COMPARE1A cfg st).stepsTaken = st.stepsTaken) ∧
    (st.PORTA &&& 0x48 = 0 →
      (SIG_OUTPUT_COMPARE1A cfg st).PORTA &&& 0x48 = 0x48 &&& st.stepperFilter ∧
      (SIG_OUTPUT_COMPARE1A cfg st).stepsToTake = st.stepsToTake - 1 ∧
      (SIG_OUTPUT_COMPARE1A cfg st).stepsTaken = (st.stepsTaken + 1) % 65536 ∧
      (st.stepsTaken < 65535 →
        (SIG_OUTPUT_COMPARE1A cfg st).stepsTaken = st.stepsTaken + 1)) ∧
    (SIG_OUTPUT_COMPARE1A cfg st).PORTA &&& 0xB7 = st.PORTA &&& 0xB7 ∧
    (SIG_OUTPUT_COMPARE1A cfg st).TCCR1B = st.TCCR1B ∧
    (timerRunning st → timerRunning (SIG_OUTPUT_COMPARE1A cfg st)) := by
  have hR0 : ¬ st.stepsToTake = 0 := by omega
  have hB : (SIG_OUTPUT_COMPARE1A cfg st).TCCR1B = st.TCCR1B := by
    simp only [SIG_OUTPUT_COMPARE1A, rampUpdate_TCCR1B, pulsePhase_TCCR1B, if_neg hR0]
  refine ⟨?_, ?_, ?_, hB, ?_⟩
  · intro hp
    obtain ⟨hP, hR, hT, _, _⟩ := tick_of_asserted cfg st hp
    exact ⟨by rw [hP]; exact pulse_cleared st.PORTA, hR, hT⟩
  · intro hp
    obtain ⟨hP, hR, hT, _, _⟩ := tick_of_clear cfg st hp
    refine ⟨by rw [hP]; exact pulse_asserted _ _ hp, by rw [hR]; omega, hT, ?_⟩
    intro hlt
    rw [hT]
    omega
  · by_cases hp : st.PORTA &&& 0x48 = 0
    · rw [(tick_of_clear cfg st hp).1]
      exact pulse_bits_outside _ _
    · rw [(tick_of_asserted cfg st hp).1, Nat.and_assoc, Nat.and_self]
  · intro hrun
    rw [timerRunning_iff, hB]
    exact (timerRunning_iff st).1 hrun

/-- C25 at the trailing edge three ticks into a rotation about the left wheel. -/
theorem two_ticks_per_step_witness :
    (0 < midMoveState.stepsToTake ∧ midMoveState.stepsToTake < 65536 ∧
      midMoveState.PORTA &&& 0x48 ≠ 0 ∧ timerRunning midMoveState) ∧
    ((SIG_OUTPUT_COMPARE1A sampleConfig midMoveState).PORTA &&& 0x48 = 0 ∧
      (SIG_OUTPUT_COMPARE1A sampleConfig midMoveState).stepsToTake =
        midMoveState.stepsToTake ∧
      (SIG_OUTPUT_COMPARE1A sampleConfig midMoveState).stepsTaken =
        midMoveState.stepsTaken) ∧
    (SIG_OUTPUT_COMPARE1A sampleConfig midMoveState).PORTA &&& 0xB7 =
      midMoveState.PORTA &&& 0xB7 ∧
    timerRunning (SIG_OUTPUT_COMPARE1A sampleConfig midMoveState) :=
  ⟨⟨by decide, by decide, by decide, by decide⟩,
    (two_ticks_per_step sampleConfig midMoveState (by decide) (by decide)).1 (by decide),
    (two_ticks_per_step sampleConfig midMoveState (by decide) (by decide)).2.2.1,
    (two_ticks_per_step sampleConfig midMoveState (by decide) (by decide)).2.2.2.2
      (by decide)⟩

/-! ## Direction bits -/

theorem straight_rest (cfg : Config) (s dir : Nat) (st : State) :
    (Stepper_MoveStraight cfg s dir st).PORTA &&& 0xDB = st.PORTA &&& 0xDB := by
  unfold Stepper_MoveStraight StartSteppers
  by_cases hd : dir = cfg.FORWARD
  · simp only [hd, if_true]
    rw [and_and_mask _ 0xFB 0xDB 0xDB (by decide), or_and_mask_keep _ _ _ (by decide)]
  · simp only [hd, if_false]
    rw [and_and_mask _ 0xDF 0xDB 0xDB (by decide), or_and_mask_keep _ _ _ (by decide)]

theorem center_rest (s dir : Nat) (st : State) :
    (Stepper_RotateAboutCenter s dir st).PORTA &&& 0xDB = st.PORTA &&& 0xDB := by
  unfold Stepper_RotateAboutCenter StartSteppers
  by_cases hd : dir = 0
  · simp only [hd, if_true]
    rw [or_and_mask_keep _ _ _ (by decide)]
  · simp only [hd, if_false]
    rw [Nat.and_assoc, Nat.and_self]

theorem wheel_rest (cfg : Config) (s w dir : Nat) (st : State) :
    (Stepper_RotateAboutWheel cfg s w dir st).PORTA &&& 0xDB = st.PORTA &&& 0xDB := by
  unfold Stepper_RotateAboutWheel StartSteppers
  by_cases hd : dir = 0 <;> by_cases hw : w = cfg.LEFT
  · simp only [hd, hw, if_true]
    rw [or_and_mask_keep _ _ _ (by decide)]
  · simp only [hd, hw, if_true, if_false]
    rw [or_and_mask_keep _ _ _ (by decide)]
  · simp only [hd, hw, if_true, if_false]
    rw [Nat.and_assoc, Nat.and_self]
  · simp only [hd, hw, if_false]
    rw [Nat.and_assoc, Nat.and_self]

/-- C26 (direction bits per command).  From every prior `PORTA`: after
`Stepper_MoveStraight` the direction bits (mask `0x24`) are bit 5 alone when
`dir = FORWARD` and bit 2 alone otherwise; after `Stepper_RotateAboutCenter` and
`Stepper_RotateAboutWheel` they are both set when `dir = 0` and both clear
otherwise; and each command leaves every other bit of `PORTA` (mask `0xDB`), the
pulse bits 6 and 3 (mask `0x48`) among them, as it was. -/
theorem direction_bits_per_command (cfg : Config) (steps wheel dir : Nat) (st : State) :
    ((Stepper_MoveStraight cfg steps dir st).PORTA &&& 0x24 =
        (if dir = cfg.FORWARD then 0x20 else 0x04) ∧
      (Stepper_MoveStraight cfg steps dir st).PORTA &&& 0xDB = st.PORTA &&& 0xDB ∧
      (Stepper_MoveStraight cfg steps dir st).PORTA &&& 0x48 = st.PORTA &&& 0x48) ∧
    ((Stepper_RotateAboutCenter steps dir st).PORTA &&& 0x24 =
        (if dir = 0 then 0x24 else 0) ∧
      (Stepper_RotateAboutCenter steps dir st).PORTA &&& 0xDB = st.PORTA &&& 0xDB ∧
      (Stepper_RotateAboutCenter steps dir st).PORTA &&& 0x48 = st.PORTA &&& 0x48) ∧
    ((Stepper_RotateAboutWheel cfg steps wheel dir st).PORTA &&& 0x24 =
        (if dir = 0 then 0x24 else 0) ∧
      (Stepper_RotateAboutWheel cfg steps wheel dir st).PORTA &&& 0xDB =
        st.PORTA &&& 0xDB ∧
      (Stepper_RotateAboutWheel cfg steps wheel dir st).PORTA &&& 0x48 =
        st.PORTA &&& 0x48) :=
  ⟨⟨straight_dir cfg steps dir st, straight_rest cfg steps dir st,
      straight_pulse cfg steps dir st⟩,
    ⟨center_dir steps dir st, center_rest steps dir st, center_pulse steps dir st⟩,
    ⟨wheel_dir cfg steps wheel dir st, wheel_rest cfg steps wheel dir st,
      wheel_pulse cfg steps wheel dir st⟩⟩

/-! ## The compare value and the period -/

/-- C27 (the half-period compare value tracks the period).  In every state
reachable from `Stepper_Init` through move commands and ticks, `ICR1` is the table
entry `rampArray[rampStage]` (as a 16-bit value) and `OCR1A = ICR1 / 2`. -/
theorem compare_tracks_period (cfg : Config) (st : State) (hr : Reachable cfg st) :
    st.ICR1 = toU16 (rampArray cfg st.rampStage) ∧ st.OCR1A = st.ICR1 / 2 := by
  induction hr with
  | init mode prior => exact ⟨rfl, rfl⟩
  | command c st0 _ _ ih =>
    obtain ⟨_, _, _, _, _, h6, h7, h8⟩ := command_fields cfg c st0
    rw [h6, h7, h8]
    exact ih
  | tick st0 _ _ ih =>
    have hspec := rampIndexUsed_spec cfg st0
    cases hidx : rampIndexUsed cfg st0 with
    | none =>
      rw [hidx] at hspec
      have e : rampRegs (SIG_OUTPUT_COMPARE1A cfg st0) = rampRegs st0 := hspec
      have e1 : (SIG_OUTPUT_COMPARE1A cfg st0).rampStage = st0.rampStage :=
        congrArg (fun r => r.1) e
      have e2 : (SIG_OUTPUT_COMPARE1A cfg st0).ICR1 = st0.ICR1 := congrArg (fun r => r.2.1) e
      have e3 : (SIG_OUTPUT_COMPARE1A cfg st0).OCR1A = st0.OCR1A :=
        congrArg (fun r => r.2.2) e
      rw [e1, e2, e3]
      exact ih
    | some i =>
      rw [hidx] at hspec
      have e : rampRegs (SIG_OUTPUT_COMPARE1A cfg st0) =
          (i, toU16 (rampArray cfg i), toU16 (rampArray cfg i) / 2) := hspec
      have e1 : (SIG_OUTPUT_COMPARE1A cfg st0).rampStage = i := congrArg (fun r => r.1) e
      have e2 : (SIG_OUTPUT_COMPARE1A cfg st0).ICR1 = toU16 (rampArray cfg i) :=
        congrArg (fun r => r.2.1) e
      have e3 : (SIG_OUTPUT_COMPARE1A cfg st0).OCR1A = toU16 (rampArray cfg i) / 2 :=
        congrArg (fun r => r.2.2) e
      rw [e1, e2, e3]
      exact ⟨rfl, rfl⟩

/-- C27 one tick into a one-step move in the sample build. -/
theorem compare_tracks_period_witness :
    Reachable sampleConfig lastPulseState ∧
    (lastPulseState.ICR1 = toU16 (rampArray sampleConfig lastPulseState.rampStage) ∧
      lastPulseState.OCR1A = lastPulseState.ICR1 / 2) :=
  ⟨lastPulseState_reachable,
    compare_tracks_period sampleConfig lastPulseState lastPulseState_reachable⟩

/-! ## Step conservation -/

theorem tick_counters (cfg : Config) (st : State) :
    ((SIG_OUTPUT_COMPARE1A cfg st).stepsToTake = st.stepsToTake ∧
      (SIG_OUTPUT_COMPARE1A cfg st).stepsTaken = st.stepsTaken) ∨
    (st.PORTA &&& 0x48 = 0 ∧
      (SIG_OUTPUT_COMPARE1A cfg st).stepsToTake = (st.stepsToTake + 65535) % 65536 ∧
      (SIG_OUTPUT_COMPARE1A cfg st).stepsTaken = (st.stepsTaken + 1) % 65536) := by
  by_cases hp : st.PORTA &&& 0x48 = 0
  · obtain ⟨_, hR, hT, _, _⟩ := tick_of_clear cfg st hp
    exact Or.inr ⟨hp, hR, hT⟩
  · obtain ⟨_, hR, hT, _, _⟩ := tick_of_asserted cfg st hp
    exact Or.inl ⟨hR, hT⟩

/-- The step counters stay 16-bit values and their sum stays congruent to the
commanded number of steps, whatever the handler meets. -/
theorem counters_congruent (cfg : Config) (c : Command) (st : State) :
    ∀ n, (ticks cfg n (c.run cfg st)).stepsTaken < 65536 ∧
      (ticks cfg n (c.run cfg st)).stepsToTake < 65536 ∧
      ((ticks cfg n (c.run cfg st)).stepsTaken +
        (ticks cfg n (c.run cfg st)).stepsToTake) % 65536 = c.steps % 65536 := by
  intro n
  induction n with
  | zero =>
    obtain ⟨hT, hR, _⟩ := command_fields cfg c st
    show (c.run cfg st).stepsTaken < 65536 ∧ (c.run cfg st).stepsToTake < 65536 ∧
      ((c.run cfg st).stepsTaken + (c.run cfg st).stepsToTake) % 65536 = c.steps % 65536
    rw [hT, hR]
    omega
  | succ n ih =>
    obtain ⟨h1, h2, h3⟩ := ih
    show (SIG_OUTPUT_COMPARE1A cfg (ticks cfg n (c.run cfg st))).stepsTaken < 65536 ∧
      (SIG_OUTPUT_COMPARE1A cfg (ticks cfg n (c.run cfg st))).stepsToTake < 65536 ∧
      ((SIG_OUTPUT_COMPARE1A cfg (ticks cfg n (c.run cfg st))).stepsTaken +
        (SIG_OUTPUT_COMPARE1A cfg (ticks cfg n (c.run cfg st))).stepsToTake) % 65536 =
        c.steps % 65536
    rcases tick_counters cfg (ticks cfg n (c.run cfg st)) with ⟨hR, hT⟩ | ⟨_, hR, hT⟩
    · rw [hR, hT]
      exact ⟨h1, h2, h3⟩
    · rw [hR, hT]
      omega

/-- While the move is in progress the sum of the step counters is exactly the
commanded number of steps. -/
theorem counters_exact (cfg : Config) (c : Command) (st : State) (hs : c.steps < 65536) :
    ∀ n, inProgress cfg n (c.run cfg st) →
      (ticks cfg n (c.run cfg st)).stepsTaken +
        (ticks cfg n (c.run cfg st)).stepsToTake = c.steps := by
  intro n
  induction n with
  | zero =>
    intro _
    obtain ⟨hT, hR, _⟩ := command_fields cfg c st
    show (c.run cfg st).stepsTaken + (c.run cfg st).stepsToTake = c.steps
    rw [hT, hR]
    omega
  | succ n ih =>
    intro hprog
    have hprev : inProgress cfg n (c.run cfg st) := fun j hj => hprog j (by omega)
    have hsum := ih hprev
    have hnow := hprog n (Nat.lt_succ_self n)
    show (SIG_OUTPUT_COMPARE1A cfg (ticks cfg n (c.run cfg st))).stepsTaken +
      (SIG_OUTPUT_COMPARE1A cfg (ticks cfg n (c.run cfg st))).stepsToTake = c.steps
    rcases tick_counters cfg (ticks cfg n (c.run cfg st)) with ⟨hR, hT⟩ | ⟨hp, hR, hT⟩
    · rw [hR, hT]
      exact hsum
    · have hR0 : (ticks cfg n (c.run cfg st)).stepsToTake ≠ 0 := fun h0 => hnow ⟨h0, hp⟩
      rw [hR, hT]
      omega

/-- While the move is in progress a handler invocation never lowers `stepsTaken`. -/
theorem taken_monotone (cfg : Config) (c : Command) (st : State) (hs : c.steps < 65536)
    (n : Nat) (hprog : inProgress cfg n (c.run cfg st)) (j : Nat) (hj : j < n) :
    (ticks cfg j (c.run cfg st)).stepsTaken ≤ (ticks cfg (j + 1) (c.run cfg st)).stepsTaken := by
  have hprev : inProgress cfg j (c.run cfg st) := fun i hi => hprog i (by omega)
  have hsum := counters_exact cfg c st hs j hprev
  have hnow := hprog j hj
  show (ticks cfg j (c.run cfg st)).stepsTaken ≤
    (SIG_OUTPUT_COMPARE1A cfg (ticks cfg j (c.run cfg st))).stepsTaken
  rcases tick_counters cfg (ticks cfg j (c.run cfg st)) with ⟨_, hT⟩ | ⟨hp, _, hT⟩
  · rw [hT]
  · have hR0 : (ticks cfg j (c.run cfg st)).stepsToTake ≠ 0 := fun h0 => hnow ⟨h0, hp⟩
    rw [hT]
    omega

/-- C28 (step conservation).  After any move command with `steps < 65536` and any
number `n` of handler invocations, `stepsTaken + stepsToTake` is congruent to
`steps` modulo `65536`; and if none of these invocations was entered with
`stepsToTake = 0` and the pulse bits clear, `stepsTaken + stepsToTake = steps`
exactly and `stepsTaken` did not decrease at any of them. -/
theorem step_conservation (cfg : Config) (c : Command) (st : State)
    (hs : c.steps < 65536) (n : Nat) :
    ((ticks cfg n (c.run cfg st)).stepsTaken +
      (ticks cfg n (c.run cfg st)).stepsToTake) % 65536 = c.steps ∧
    (inProgress cfg n (c.run cfg st) →
      (ticks cfg n (c.run cfg st)).stepsTaken +
        (ticks cfg n (c.run cfg st)).stepsToTake = c.steps ∧
      ∀ j, j < n →
        (ticks cfg j (c.run cfg st)).stepsTaken ≤
          (ticks cfg (j + 1) (c.run cfg st)).stepsTaken) := by
  refine ⟨?_, ?_⟩
  · rw [(counters_congruent cfg c st n).2.2]
    exact Nat.mod_eq_of_lt hs
  · intro hprog
    exact ⟨counters_exact cfg c st hs n hprog,
      fun j hj => taken_monotone cfg c st hs n hprog j hj⟩

theorem inProgress_three :
    inProgress sampleConfig 3 ((Command.straight 2 1).run sampleConfig zeroState) := by
  intro j hj
  have h : j = 0 ∨ j = 1 ∨ j = 2 := by omega
  rcases h with h | h | h <;> subst h <;> decide

/-- C28 three ticks into a two-step straight move from the all-zero state. -/
theorem step_conservation_witness :
    ((Command.straight 2 1).steps < 65536 ∧
      inProgress sampleConfig 3 ((Command.straight 2 1).run sampleConfig zeroState)) ∧
    ((ticks sampleConfig 3 ((Command.straight 2 1).run sampleConfig zeroState)).stepsTaken +
      (ticks sampleConfig 3 ((Command.straight 2 1).run sampleConfig zeroState)).stepsToTake)
        % 65536 = (Command.straight 2 1).steps ∧
    ((ticks sampleConfig 3 ((Command.straight 2 1).run sampleConfig zeroState)).stepsTaken +
      (ticks sampleConfig 3 ((Command.straight 2 1).run sampleConfig zeroState)).stepsToTake
        = (Command.straight 2 1).steps ∧
      ∀ j, j < 3 →
        (ticks sampleConfig j ((Command.straight 2 1).run sampleConfig zeroState)).stepsTaken ≤
          (ticks sampleConfig (j + 1)
            ((Command.straight 2 1).run sampleConfig zeroState)).stepsTaken) :=
  ⟨⟨by decide, inProgress_three⟩,
    (step_conservation sampleConfig (Command.straight 2 1) zeroState (by decide) 3).1,
    (step_conservation sampleConfig (Command.straight 2 1) zeroState (by decide) 3).2
      inProgress_three⟩

end Stepper

namespace Rtc

/-! ## The overflow handler while `rtcInterrupt` is null -/

theorem overflow_null (st : State) (h : st.rtcInterrupt = NULL) :
    SIG_OVERFLOW0 st = (st, none) := by
  unfold SIG_OVERFLOW0
  simp [h]

theorem overflows_null (st : State) (h : st.rtcInterrupt = NULL) :
    ∀ k, overflows k st = st := by
  intro k
  induction k with
  | zero => rfl
  | succ k ih =>
    show (SIG_OVERFLOW0 (overflows k st)).1 = st
    rw [ih, overflow_null st h]

theorem waitLoop_null (st : State) (h : st.rtcInterrupt = NULL) (hc : st.rtcCount > 0) :
    ∀ fuel, waitLoop fuel st = none := by
  intro fuel
  induction fuel with
  | zero => simp [waitLoop, hc]
  | succ fuel ih =>
    simp only [waitLoop, hc, if_true, overflow_null st h, ih, Option.map_none']

/-- C17, what the code does: `RTC_Delay(1)` stores `NULL` in `rtcInterrupt` before
it waits, and the overflow handler decrements `rtcCount` only when `rtcInterrupt`
is not `NULL`; so after any number `k` of overflow interrupts `rtcCount` is still
`1`, the wait loop is still spinning after any number `fuel` of them, and
`RTC_Delay` does not return. -/
theorem delay_never_counts_down (start pause : Nat → Nat) (fuel k : Nat) (st : State) :
    (RTC_Delay_setup start 1 st).rtcInterrupt = NULL ∧
    (overflows k (RTC_Delay_setup start 1 st)).rtcCount = 1 ∧
    waitLoop fuel (RTC_Delay_setup start 1 st) = none ∧
    RTC_Delay start pause fuel 1 st = none := by
  have hn : (RTC_Delay_setup start 1 st).rtcInterrupt = NULL := rfl
  have hc : (RTC_Delay_setup start 1 st).rtcCount = 1 := rfl
  have hw := waitLoop_null _ hn (by rw [hc]; decide) fuel
  refine ⟨hn, ?_, hw, ?_⟩
  · rw [overflows_null _ hn k, hc]
  · unfold RTC_Delay
    simp only [hw]

/-! ## The periodic callback -/

theorem succ_mod_cases (k c : Nat) (hc : 1 ≤ c) :
    ((k + 1) % c = 0 ∧ k % c + 1 = c) ∨ ((k + 1) % c = k % c + 1 ∧ k % c + 1 < c) := by
  have hlt : k % c < c := Nat.mod_lt k (by omega)
  have hdiv := Nat.div_add_mod k c
  rcases Nat.lt_or_ge (k % c + 1) c with h | h
  · right
    refine ⟨?_, h⟩
    have e : k + 1 = k % c + 1 + c * (k / c) := by omega
    rw [e, Nat.add_mul_mod_self_left, Nat.mod_eq_of_lt h]
  · left
    have heq : k % c + 1 = c := by omega
    refine ⟨?_, heq⟩
    have e : k + 1 = c * (k / c + 1) := by
      rw [Nat.mul_add, Nat.mul_one]
      omega
    rw [e, Nat.mul_mod_right]

theorem overflow_nonnull (st : State) (h : st.rtcInterrupt ≠ NULL) :
    SIG_OVERFLOW0 st =
      if (st.rtcCount + 65535) % 65536 = 0 then
        ({ st with rtcCount := st.rtcMax }, some st.rtcInterrupt)
      else
        ({ st with rtcCount := (st.rtcCount + 65535) % 65536 }, none) := by
  unfold SIG_OVERFLOW0
  simp only [h, ne_eq, not_false_eq_true, if_true]

/-- The module's variables `k` overflows after `RTC_SetInterrupt(f, c)`. -/
theorem overflows_after_set (f c : Nat) (st : State) (hf : f ≠ NULL) (h1 : 1 ≤ c)
    (hc : c ≤ 65535) :
    ∀ k, (overflows k (RTC_SetInterrupt f c st)).rtcInterrupt = f ∧
      (overflows k (RTC_SetInterrupt f c st)).rtcMax = c ∧
      (overflows k (RTC_SetInterrupt f c st)).rtcCount = c - k % c := by
  intro k
  induction k with
  | zero =>
    refine ⟨rfl, ?_, ?_⟩
    · show c % 65536 = c
      omega
    · show c % 65536 = c - 0 % c
      rw [Nat.zero_mod]
      omega
  | succ k ih =>
    obtain ⟨hI, hM, hC⟩ := ih
    have hlt : k % c < c := Nat.mod_lt k (by omega)
    have hnn : (overflows k (RTC_SetInterrupt f c st)).rtcInterrupt ≠ NULL := by
      rw [hI]; exact hf
    show (SIG_OVERFLOW0 (overflows k (RTC_SetInterrupt f c st))).1.rtcInterrupt = f ∧
      (SIG_OVERFLOW0 (overflows k (RTC_SetInterrupt f c st))).1.rtcMax = c ∧
      (SIG_OVERFLOW0 (overflows k (RTC_SetInterrupt f c st))).1.rtcCount = c - (k + 1) % c
    rw [overflow_nonnull _ hnn, hC]
    rcases succ_mod_cases k c h1 with ⟨hz, he⟩ | ⟨hs, hl⟩
    · have h0 : (c - k % c + 65535) % 65536 = 0 := by omega
      rw [if_pos h0, hz]
      exact ⟨hI, hM, hM⟩
    · have h0 : ¬ (c - k % c + 65535) % 65536 = 0 := by omega
      rw [if_neg h0, hs]
      refine ⟨hI, hM, ?_⟩
      show (c - k % c + 65535) % 65536 = c - (k % c + 1)
      omega

/-- C18 (periodic RTC callback).  After `RTC_SetInterrupt(f, c)` with `f` not null
and `1 ≤ c ≤ 65535`, the overflow interrupt number `k + 1` calls `f` when `k + 1` is
a multiple of `c` and calls nothing otherwise. -/
theorem periodic_callback (f c : Nat) (st : State) (hf : f ≠ NULL) (h1 : 1 ≤ c)
    (hc : c ≤ 65535) (k : Nat) :
    (SIG_OVERFLOW0 (overflows k (RTC_SetInterrupt f c st))).2 =
      if (k + 1) % c = 0 then some f else none := by
  obtain ⟨hI, _, hC⟩ := overflows_after_set f c st hf h1 hc k
  have hlt : k % c < c := Nat.mod_lt k (by omega)
  have hnn : (overflows k (RTC_SetInterrupt f c st)).rtcInterrupt ≠ NULL := by
    rw [hI]; exact hf
  rw [overflow_nonnull _ hnn, hC]
  rcases succ_mod_cases k c h1 with ⟨hz, he⟩ | ⟨hs, hl⟩
  · have h0 : (c - k % c + 65535) % 65536 = 0 := by omega
    rw [if_pos h0, if_pos hz]
    exact congrArg some hI
  · have h0 : ¬ (c - k % c + 65535) % 65536 = 0 := by omega
    have h2 : ¬ (k + 1) % c = 0 := by omega
    rw [if_neg h0, if_neg h2]

/-- C18 at `RTC_SetInterrupt(f, 128)`, on overflow number 256. -/
theorem periodic_callback_witness :
    ((7 : Nat) ≠ NULL ∧ 1 ≤ 128 ∧ 128 ≤ 65535) ∧
    (SIG_OVERFLOW0 (overflows 255 (RTC_SetInterrupt 7 128 zeroState))).2 =
      if (255 + 1) % 128 = 0 then some 7 else none :=
  ⟨⟨by decide, by decide, by decide⟩,
    periodic_callback 7 128 zeroState (by decide) (by decide) (by decide) 255⟩

end Rtc

namespace Servo

/-- C19, what the code does: `Servo_SetAngle` stores at index `servoMotorNumber`,
not one below.  For servo 8 the store goes to `servoValues[8]`, behind the
8-element array, and no entry of the array changes; for servo 1 it goes to
`servoValues[1]`, the entry `Servo_SetAngles` fills from its second argument, and
`servoValues[0]`, which `Servo_SetAngles` fills from its first argument, is left
as it was. -/
theorem setAngle_stores_one_too_high (value : Nat) (servoValues : Nat → Nat)
    (v1 v2 v3 v4 v5 v6 v7 v8 : Nat) :
    Servo_SetAngle value 8 servoValues 8 = value ∧
    (∀ i : Fin 8, Servo_SetAngle value 8 servoValues i.val = servoValues i.val) ∧
    Servo_SetAngle value 1 servoValues 1 = value ∧
    Servo_SetAngle value 1 servoValues 0 = servoValues 0 ∧
    Servo_SetAngles v1 v2 v3 v4 v5 v6 v7 v8 servoValues 0 = v1 ∧
    Servo_SetAngles v1 v2 v3 v4 v5 v6 v7 v8 servoValues 1 = v2 ∧
    Servo_SetAngles v1 v2 v3 v4 v5 v6 v7 v8 servoValues 7 = v8 := by
  refine ⟨?_, ?_, ?_, ?_, rfl, rfl, rfl⟩
  · simp [Servo_SetAngle]
  · intro i
    have hi : i.val ≠ 8 := Nat.ne_of_lt i.isLt
    simp [Servo_SetAngle, hi]
  · simp [Servo_SetAngle]
  · simp [Servo_SetAngle]

end Servo

namespace DCmotors

/-- C20, what the code does: `DCmotors_SetLeftMotor` and `DCmotors_SetRightMotor`
AND the direction field into `PORTD` (`PORTD &= ...`), so every bit outside the
field is cleared and a bit inside it survives only if it was already set.  From
`PORTD = 0x30`, `DCmotors_SetLeftMotor(50, 1)` leaves `PORTD = 0`: bits 7:6 are
`00`, not `01` (the `0x40` that `DCmotors_ChangeDir(1, _)` puts there), and the
right motor's bits 5:4 are lost.  From `PORTD = 0xC0`, `DCmotors_SetRightMotor(50,
1)` leaves `PORTD = 0` likewise. -/
theorem set_motor_clears_port (pwm : Nat → Nat) (motorSpeed motorDir rightDir : Nat)
    (st : State) :
    (DCmotors_SetLeftMotor pwm motorSpeed motorDir st).PORTD =
      st.PORTD &&& ((motorDir <<< 6) &&& 0xC0) ∧
    (DCmotors_SetRightMotor pwm motorSpeed motorDir st).PORTD =
      st.PORTD &&& ((motorDir <<< 4) &&& 0x30) ∧
    (DCmotors_SetLeftMotor pwm 50 1 { PORTD := 0x30, OCR3B := 0, OCR3C := 0 }).PORTD = 0 ∧
    (DCmotors_SetRightMotor pwm 50 1 { PORTD := 0xC0, OCR3B := 0, OCR3C := 0 }).PORTD = 0 ∧
    (DCmotors_ChangeDir 1 rightDir st).PORTD &&& 0xC0 = 0x40 := by
  have hl : ∀ (speed dir : Nat) (t : State),
      (DCmotors_SetLeftMotor pwm speed dir t).PORTD = t.PORTD &&& ((dir <<< 6) &&& 0xC0) := by
    intro speed dir t
    unfold DCmotors_SetLeftMotor
    dsimp only
    split_ifs <;> rfl
  have hr : ∀ (speed dir : Nat) (t : State),
      (DCmotors_SetRightMotor pwm speed dir t).PORTD = t.PORTD &&& ((dir <<< 4) &&& 0x30) := by
    intro speed dir t
    unfold DCmotors_SetRightMotor
    dsimp only
    split_ifs <;> rfl
  refine ⟨hl _ _ _, hr _ _ _, ?_, ?_, ?_⟩
  · rw [hl]
    decide
  · rw [hr]
    decide
  · unfold DCmotors_ChangeDir
    show ((1 <<< 6 &&& 0xC0) ||| (rightDir <<< 4 &&& 0x30)) &&& 0xC0 = 0x40
    rw [Nat.and_comm, Nat.and_or_distrib_left]
    have h1 : (0xC0 : Nat) &&& (1 <<< 6 &&& 0xC0) = 0x40 := by decide
    have h2 : (0xC0 : Nat) &&& (rightDir <<< 4 &&& 0x30) = 0 := by
      rw [← Nat.and_assoc, Nat.and_comm 0xC0, Nat.and_assoc,
        show (0xC0 &&& 0x30 : Nat) = 0 by decide, Nat.and_zero]
    rw [h1, h2, Nat.or_zero]

end DCmotors

namespace DigitalIO

/-- C21, what the code does: in `PINB & _BV(bitNumber)>>(bitNumber)` the shift is
applied to `_BV(bitNumber)` first, so the mask is always `1` and the function
returns bit 0 of the input register whatever `bitNumber` is (bit 0 of `PINB` for
pin 1, of `PINE` for pin 3, of `PIND` for pin 7).  With only pin 1 high
(`PINB = 0x02`) `IO_ReadPort1` returns `0x02` but `IO_ReadPort1Bit(1)` returns 0;
with only pin 0 high `IO_ReadPort1Bit(1)` returns 1. -/
theorem readPort1Bit_reads_bit_zero (cfg : Config) (st : State) :
    (IO_ReadPort1Bit cfg 1 st).2 = (st.PINB &&& 1) % 256 ∧
    (IO_ReadPort1Bit cfg 3 st).2 = (st.PINE &&& 1) % 256 ∧
    (IO_ReadPort1Bit cfg 7 st).2 = (st.PIND &&& 1) % 256 ∧
    (IO_ReadPort1 sampleConfig { zeroState with PINB := 0x02 }).2 = 0x02 ∧
    (IO_ReadPort1Bit sampleConfig 1 { zeroState with PINB := 0x02 }).2 = 0 ∧
    (IO_ReadPort1 sampleConfig { zeroState with PINB := 0x01 }).2 = 0x01 ∧
    (IO_ReadPort1Bit sampleConfig 1 { zeroState with PINB := 0x01 }).2 = 1 := by
  refine ⟨?_, ?_, ?_, by decide, by decide, by decide, by decide⟩
  · unfold IO_ReadPort1Bit
    simp only [show (1 : Nat) < 2 by decide, if_true]
    rw [show ((2 : Nat) ^ 1) >>> 1 = 1 by decide]
  · unfold IO_ReadPort1Bit
    simp only [show ¬ (3 : Nat) < 2 by decide, show (3 : Nat) < 4 by decide, if_true,
      if_false]
    rw [show ((2 : Nat) ^ 3) >>> 3 = 1 by decide]
  · unfold IO_ReadPort1Bit
    simp only [show ¬ (7 : Nat) < 2 by decide, show ¬ (7 : Nat) < 4 by decide,
      show (7 : Nat) < 8 by decide, if_true, if_false]
    rw [show ((2 : Nat) ^ 7) >>> 7 = 1 by decide]

/-- C22, what the code does: the function accepts the numbers 1 to 4, not 0 to 3,
and uses `interruptNumber + 4` for the pin and the enable bit.  For number 1 it
stores the handler in `extInterrupt0` (called by the routine of interrupt 4) and
writes the sense field of interrupt 4 (`EICRB` bits 1:0), but sets the enable bit
of interrupt 5; from the all-zero state `EIMSK` becomes `0x20`, the routine of
interrupt 4 would call the handler and the routine of the enabled interrupt 5
calls nothing.  Number 0 changes nothing, and number 4 sets no enable bit
(`_BV(8)` does not fit the 8-bit `EIMSK`). -/
theorem setExtInterrupt_enables_next (mode fptr : Nat) (st : State) :
    (IO_SetExtInterrupt 1 mode fptr st).EIMSK = setBit8 st.EIMSK 5 ∧
    (IO_SetExtInterrupt 1 mode fptr st).extInterrupt0 = fptr ∧
    (IO_SetExtInterrupt 1 mode fptr st).extInterrupt1 = st.extInterrupt1 ∧
    (IO_SetExtInterrupt 1 mode fptr st).EICRB = (st.EICRB &&& 0xFC) ||| (mode &&& 0x03) ∧
    IO_SetExtInterrupt 0 mode fptr st = st ∧
    (IO_SetExtInterrupt 1 3 7 zeroState).EIMSK = 0x20 ∧
    SIG_INTERRUPT4 (IO_SetExtInterrupt 1 3 7 zeroState) = some 7 ∧
    SIG_INTERRUPT5 (IO_SetExtInterrupt 1 3 7 zeroState) = none ∧
    (IO_SetExtInterrupt 4 3 7 zeroState).EIMSK = 0 ∧
    IO_ResetExtInterrupt 0 (IO_SetExtInterrupt 1 3 7 zeroState) =
      IO_SetExtInterrupt 1 3 7 zeroState := by
  refine ⟨rfl, rfl, rfl, rfl, rfl, by decide, by decide, by decide, by decide, by decide⟩

end DigitalIO

namespace Lcd

/-- C23, what the code does: the test is `column < 16`, so column 16 of either row
(and of any other row) issues no command and the state is unchanged, while column
0, outside the documented range, issues the command `0x7F` on row 1 and `0xBF` on
row 2; column 15 still gives `0x8E`. -/
theorem gotoXY_misses_last_column (row : Nat) (st : State) :
    Lcd_GotoXY row 16 st = st ∧
    (Lcd_GotoXY 1 0 st).commands = st.commands ++ [0x7F] ∧
    (Lcd_GotoXY 2 0 st).commands = st.commands ++ [0xBF] ∧
    (Lcd_GotoXY 1 15 st).commands = st.commands ++ [0x8E] := by
  refine ⟨?_, rfl, rfl, rfl⟩
  unfold Lcd_GotoXY
  simp

end Lcd

namespace Uart

set_option maxRecDepth 20000

/-! ## Reading up to the terminator -/

theorem readLoop_text (size : Nat) (termChar : Int) (t : Nat) (rest : List Nat)
    (ht : (t : Int) = termChar) :
    ∀ (text : List Nat) (pos : Nat) (buffer : Nat → Nat),
      pos + text.length ≤ 255 → pos + text.length < size →
      (∀ d ∈ text, (d : Int) ≠ termChar) →
      ∃ buf', readLoop size termChar (text ++ t :: rest) pos buffer = some (buf', rest) ∧
        (∀ i, i < text.length → buf' (pos + i) = text.getD i 0) ∧
        buf' (pos + text.length) = 0 ∧
        (∀ j, j < pos ∨ pos + text.length < j → buf' j = buffer j) := by
  intro text
  induction text with
  | nil =>
    intro pos buffer _ _ _
    refine ⟨store buffer pos 0, ?_, ?_, ?_, ?_⟩
    · simp [readLoop, ht]
    · intro i hi
      exact absurd hi (Nat.not_lt_zero i)
    · simp [store]
    · intro j hj
      have hne : j ≠ pos := by
        simp only [List.length_nil, Nat.add_zero] at hj
        omega
      simp [store, hne]
  | cons d ds ih =>
    intro pos buffer h255 hsize hno
    have hd : ¬ ((d : Int) = termChar ∨ pos = size) := by
      intro h
      rcases h with h | h
      · exact hno d (List.mem_cons_self d ds) h
      · simp only [List.length_cons] at hsize
        omega
    have hlen : (d :: ds).length = ds.length + 1 := rfl
    have hpos : (pos + 1) % 256 = pos + 1 := by
      rw [hlen] at h255
      omega
    obtain ⟨buf', hrun, htext, hnul, hframe⟩ :=
      ih (pos + 1) (store buffer pos d) (by rw [hlen] at h255; omega)
        (by rw [hlen] at hsize; omega)
        (fun x hx => hno x (List.mem_cons_of_mem d hx))
    refine ⟨buf', ?_, ?_, ?_, ?_⟩
    · show readLoop size termChar (d :: (ds ++ t :: rest)) pos buffer = some (buf', rest)
      simp only [readLoop, hd, if_false, hpos]
      exact hrun
    · intro i hi
      cases i with
      | zero =>
        have h1 := hframe pos (Or.inl (Nat.lt_succ_self pos))
        rw [Nat.add_zero, h1]
        simp [store]
      | succ i =>
        have h1 := htext i (by rw [hlen] at hi; omega)
        have e : pos + (i + 1) = pos + 1 + i := by omega
        rw [e, h1]
        rfl
    · have e : pos + (d :: ds).length = pos + 1 + ds.length := by rw [hlen]; omega
      rw [e]
      exact hnul
    · intro j hj
      have hj' : j < pos + 1 ∨ pos + 1 + ds.length < j := by
        rw [hlen] at hj
        omega
      have hne : j ≠ pos := by
        rw [hlen] at hj
        omega
      rw [hframe j hj']
      simp [store, hne]

/-- C24, a stream whose terminator is at position 256 in a build with a buffer of
300 bytes: `rxPos` is a `byte` and wraps to 0 after 256 stores, so the function
consumes all 257 bytes but writes the NUL at index 0, over the first character, and
never touches index 256 (still `0xFF` from before). -/
theorem readString_counterexample :
    longLine.length = 257 ∧ longLine.indexOf 13 = 256 ∧
    256 < wideConfig.RX0BUFFERSIZE ∧
    (Uart0_ReadString wideConfig 13 longLine (fun _ => 0xFF)).map
      (fun r => (r.1 0, r.1 1, r.1 256, r.2)) = some (0, 97, 0xFF, []) := by
  refine ⟨by decide, by decide, by decide, by decide⟩

/-- C24 as amended (the text before the terminator).  Let the received bytes be
`text`, then a byte equal to `termChar`, then `rest`, with no byte of `text` equal
to `termChar`, and let `k = text.length` satisfy `k ≤ 255` (the range of the `byte`
`rxPos`).  If `k < RX0BUFFERSIZE`, `Uart0_ReadString` returns having consumed
exactly the `k + 1` bytes up to the terminator (`rest` is left), with the bytes of
`text` at indices `0..k-1` of `rx0Buffer`, a NUL at index `k` and nothing written
beyond; and likewise `Uart1_ReadString` with `rx1Buffer` if `k < RX1BUFFERSIZE`. -/
theorem readString_returns_text (cfg : Config) (termChar : Int) (text rest : List Nat)
    (t : Nat) (buffer : Nat → Nat) (ht : (t : Int) = termChar)
    (hno : ∀ d ∈ text, (d : Int) ≠ termChar) (hk : text.length ≤ 255) :
    (text.length < cfg.RX0BUFFERSIZE →
      ∃ buf', Uart0_ReadString cfg termChar (text ++ t :: rest) buffer = some (buf', rest) ∧
        (∀ i, i < text.length → buf' i = text.getD i 0) ∧
        buf' text.length = 0 ∧
        (∀ j, text.length < j → buf' j = buffer j)) ∧
    (text.length < cfg.RX1BUFFERSIZE →
      ∃ buf', Uart1_ReadString cfg termChar (text ++ t :: rest) buffer = some (buf', rest) ∧
        (∀ i, i < text.length → buf' i = text.getD i 0) ∧
        buf' text.length = 0 ∧
        (∀ j, text.length < j → buf' j = buffer j)) := by
  have key : ∀ size, text.length < size →
      ∃ buf', readLoop size termChar (text ++ t :: rest) 0 buffer = some (buf', rest) ∧
        (∀ i, i < text.length → buf' i = text.getD i 0) ∧
        buf' text.length = 0 ∧
        (∀ j, text.length < j → buf' j = buffer j) := by
    intro size hsize
    obtain ⟨buf', hrun, htext, hnul, hframe⟩ :=
      readLoop_text size termChar t rest ht text 0 buffer (by omega) (by omega) hno
    refine ⟨buf', hrun, ?_, ?_, ?_⟩
    · intro i hi
      have h := htext i hi
      rwa [Nat.zero_add] at h
    · rwa [Nat.zero_add] at hnul
    · intro j hj
      exact hframe j (Or.inr (by omega))
  exact ⟨fun h => key cfg.RX0BUFFERSIZE h, fun h => key cfg.RX1BUFFERSIZE h⟩

/-- C24 as amended, on the bytes `h`, `i`, carriage return, tab with a buffer of 64
bytes. -/
theorem readString_returns_text_witness :
    (((13 : Nat) : Int) = 13 ∧ (∀ d ∈ [104, 105], ((d : Nat) : Int) ≠ 13) ∧
      [104, 105].length ≤ 255 ∧ [104, 105].length < sampleConfig.RX0BUFFERSIZE) ∧
    ∃ buf', Uart0_ReadString sampleConfig 13 ([104, 105] ++ 13 :: [9]) (fun _ => 0xFF) =
        some (buf', [9]) ∧
      (∀ i, i < [104, 105].length → buf' i = [104, 105].getD i 0) ∧
      buf' [104, 105].length = 0 ∧
      (∀ j, [104, 105].length < j → buf' j = (fun _ => 0xFF) j) :=
  ⟨⟨by decide, by decide, by decide, by decide⟩,
    (readString_returns_text sampleConfig 13 [104, 105] [9] 13 (fun _ => 0xFF) (by decide)
      (by decide) (by decide)).1 (by decide)⟩

end Uart
